import Mathlib

/-!
Shallow embedding of the `Population` container of `geatpy`
(`src/geatpy/Population.py`).

Matrices are lists of rows (`List (List Int)`); a Python attribute that can
be `None` is an `Option`.  Every operation that can raise a Python exception
is `Except PopErr`-valued; the distinct `raise` sites of the source (and the
numpy/Python errors its unguarded operations can produce) get distinct error
constructors.  Randomness (`np.random.rand` in `shuffle`) and the external
collaborators (`ea.crtpc`, `ea.bs2ri`) are passed in as explicit parameters.
-/

/-- A numpy 2-D matrix, as a list of rows. -/
abbrev Mat : Type := List (List Int)

/-- Error outcomes of the Population operations.  The first seven correspond
to the explicit `raise RuntimeError` sites of the source; `typeError`,
`indexError` and `attributeError` model the Python/numpy exceptions raised by
unguarded operations on `None` operands or out-of-range indices. -/
inductive PopErr where
  | sizeError
  | encodingMismatch
  | fieldMismatch
  | sizeMismatch
  | chromIsNone
  | cvMismatch
  | unsupportedEncoding
  | typeError
  | indexError
  | attributeError
  deriving DecidableEq, Repr

/-- The Population record: `sizes`, `Encoding`, `Field`, `Chrom`, `Lind`,
`ObjV`, `FitnV`, `CV`, `Phen`, exactly the attributes set by `__init__`.
`FitnV` is never `None` after construction, so it is a plain matrix. -/
structure Population where
  sizes : Nat
  Encoding : Option String
  Field : Option Mat
  Chrom : Option Mat
  Lind : Nat
  ObjV : Option Mat
  FitnV : Mat
  CV : Option Mat
  Phen : Option Mat
  deriving DecidableEq, Repr

/-- `m.shape[1]` of a list-of-rows matrix: the column count read off the
first row (adequate for the non-empty matrices the claims are about). -/
def shape1 (m : Mat) : Nat := (m.headD []).length

/-- numpy row gather `m[index]`: `none` models the `IndexError` raised when
some index is out of range. -/
def gather (m : Mat) : List Nat → Option Mat
  | [] => some []
  | i :: is =>
    match m[i]?, gather m is with
    | some r, some g => some (r :: g)
    | _, _ => none

/-- Sequential row writes, the effect of numpy fancy-index assignment
`m[index] = v` once its length and range preconditions hold (with repeated
indices the last write wins, as in numpy). -/
def setRows : Mat → List Nat → Mat → Mat
  | m, [], _ => m
  | m, _ :: _, [] => m
  | m, i :: is, r :: rs => setRows (m.set i r) is rs

/-- `np.all(a == b)` on two possibly-`None` matrices: `None == None` is
truthy; an array compared with `None`, or arrays of different contents or
shapes, give `False`. -/
def npAllEq (a b : Option Mat) : Bool :=
  match a, b with
  | none, none => true
  | some x, some y => x == y
  | _, _ => false

/-- Row gather that raises `IndexError` on an out-of-range index. -/
def gatherE (m : Mat) (idx : List Nat) : Except PopErr Mat :=
  match gather m idx with
  | none => Except.error PopErr.indexError
  | some g => Except.ok g

/-- Guarded gather of an optional matrix: source code of the form
`self.X[index] if self.X is not None else self.X`. -/
def gatherOptE (m : Option Mat) (idx : List Nat) : Except PopErr (Option Mat) :=
  match m with
  | none => Except.ok none
  | some mm => (gatherE mm idx).map some

/-- numpy fancy-index assignment `m[idx] = v`: raises unless the value has
exactly one row per index and every index is in range. -/
def scatterE (m : Mat) (idx : List Nat) (v : Mat) : Except PopErr Mat :=
  if idx.length = v.length ∧ ∀ i ∈ idx, i < m.length then Except.ok (setRows m idx v)
  else Except.error PopErr.indexError

/-- Unguarded `self.X[idx] = pop.X` on optional attributes: a `None` on
either side raises a Python `TypeError` at the write. -/
def scatterOptE (m : Option Mat) (idx : List Nat) (v : Option Mat) : Except PopErr Mat :=
  match m, v with
  | some mm, some vv => scatterE mm idx vv
  | _, _ => Except.error PopErr.typeError

/-- `np.vstack([a, b])` on two matrices that must both be present. -/
def npVstack2 (a b : Option Mat) : Except PopErr Mat :=
  match a, b with
  | some x, some y => Except.ok (x ++ y)
  | _, _ => Except.error PopErr.typeError

/-- `Population.__init__` (source lines 50-77).  `NIND` must be a
non-negative integer; with `Encoding = None` both `Field` and `Chrom` are
forced absent, `Field.copy()` on a `None` field raises, `FitnV` defaults to
all-ones, and — exactly as in the source — `Lind` is computed from the
`Chrom` *argument*, not from the stored chromosome. -/
def Population.init (Encoding : Option String) (Field : Option Mat) (NIND : Int)
    (Chrom ObjV FitnV CV Phen : Option Mat) : Except PopErr Population :=
  if NIND < 0 then Except.error PopErr.sizeError
  else if Encoding.isSome ∧ Field = none then Except.error PopErr.attributeError
  else Except.ok {
    sizes := NIND.toNat
    Encoding := Encoding
    Field := match Encoding with | none => none | some _ => Field
    Chrom := match Encoding with | none => none | some _ => Chrom
    Lind := match Chrom with | some c => shape1 c | none => 0
    ObjV := ObjV
    FitnV := match FitnV with | some f => f | none => List.replicate NIND.toNat [1]
    CV := CV
    Phen := Phen }

/-- `Population.decoding` (source lines 94-105), with the external codec
`ea.bs2ri` passed in.  `'RI'`/`'P'` return `self.Chrom.copy()` (which raises
if `Chrom` is `None`); any other encoding raises. -/
def Population.decoding (bs2ri : Option Mat → Option Mat → Mat) (self : Population) :
    Except PopErr Mat :=
  if self.Encoding = some "BG" then Except.ok (bs2ri self.Chrom self.Field)
  else if self.Encoding = some "RI" ∨ self.Encoding = some "P" then
    match self.Chrom with
    | none => Except.error PopErr.attributeError
    | some c => Except.ok c
  else Except.error PopErr.unsupportedEncoding

/-- `Population.initChrom` (source lines 79-92), with the external
chromosome generator `ea.crtpc` and codec `ea.bs2ri` passed in. -/
def Population.initChrom (crtpc : Option String → Nat → Option Mat → Mat)
    (bs2ri : Option Mat → Option Mat → Mat)
    (self : Population) (NIND : Option Nat) : Except PopErr Population := do
  let sizes := NIND.getD self.sizes
  let c := crtpc self.Encoding sizes self.Field
  let p1 : Population := { self with
    sizes := sizes
    Chrom := some c
    Lind := shape1 c
    ObjV := none
    FitnV := List.replicate sizes [1]
    CV := none }
  let ph ← Population.decoding bs2ri p1
  Except.ok { p1 with Phen := some ph }

/-- `Population.copy` (source lines 107-121): reconstruction through the
constructor with the current attribute values. -/
def Population.copy (self : Population) : Except PopErr Population :=
  Population.init self.Encoding self.Field (self.sizes : Int) self.Chrom self.ObjV
    (some self.FitnV) self.CV self.Phen

/-- The `NewChrom` computation shared verbatim by `__getitem__`
(source lines 131-136) and `shuffle` (source lines 155-160): with
`Encoding = None` the new chromosome is `None`; otherwise a missing
chromosome raises, else the rows are gathered. -/
def chromStepGet (self : Population) (idx : List Nat) : Except PopErr (Option Mat) :=
  match self.Encoding with
  | none => Except.ok none
  | some _ =>
    match self.Chrom with
    | none => Except.error PopErr.chromIsNone
    | some c => (gatherE c idx).map some

/-- The unguarded `self.Phen[index]` of `__getitem__` and `shuffle`:
a `None` phenotype raises a Python `TypeError`. -/
def phenStep (m : Option Mat) (idx : List Nat) : Except PopErr Mat :=
  match m with
  | none => Except.error PopErr.typeError
  | some mm => gatherE mm idx

/-- `Population.__getitem__` (source lines 123-146).  Note that
`self.ObjV[index]` and `self.CV[index]` are guarded by `is not None` but
`self.Phen[index]` is not: a `None` phenotype raises a `TypeError`. -/
def Population.getitem (self : Population) (index : List Nat) : Except PopErr Population := do
  let NewChrom ← chromStepGet self index
  let NewFitnV ← gatherE self.FitnV index
  let NIND : Int := (NewFitnV.length : Int)
  let NewObjV ← gatherOptE self.ObjV index
  let NewCV ← gatherOptE self.CV index
  let NewPhen ← phenStep self.Phen index
  Population.init self.Encoding self.Field NIND NewChrom NewObjV (some NewFitnV) NewCV
    (some NewPhen)

/-- `Population.shuffle` (source lines 148-164), with the random permutation
`shuff = np.argsort(np.random.rand(self.sizes))` passed in explicitly.
As in `__getitem__`, `self.Phen[shuff, :]` is unguarded. -/
def Population.shuffle (self : Population) (shuff : List Nat) : Except PopErr Population := do
  let newChrom ← chromStepGet self shuff
  let newObjV ← gatherOptE self.ObjV shuff
  let newFitnV ← gatherE self.FitnV shuff
  let newCV ← gatherOptE self.CV shuff
  let newPhen ← phenStep self.Phen shuff
  Except.ok { self with
    Chrom := newChrom
    ObjV := newObjV
    FitnV := newFitnV
    CV := newCV
    Phen := some newPhen }

/-- The guarded `CV` write of `__setitem__` (source lines 190-191):
`if self.CV is not None: self.CV[index] = pop.CV` — writing a `None` value
into a present matrix raises. -/
def cvScatterStep (m : Option Mat) (idx : List Nat) (v : Option Mat) :
    Except PopErr (Option Mat) :=
  match m with
  | none => Except.ok none
  | some cv =>
    match v with
    | none => Except.error PopErr.typeError
    | some pcv => (scatterE cv idx pcv).map some

/-- The write phase of `Population.__setitem__` (source lines 188-193):
the unconditional writes to `ObjV`, `FitnV`, `CV` (when present) and `Phen`,
followed by the recomputation of `sizes` from the written phenotype. -/
def Population.setitemWrites (self : Population) (index : List Nat) (pop : Population)
    (newChrom : Option Mat) : Except PopErr Population := do
  let newObjV ← scatterOptE self.ObjV index pop.ObjV
  let newFitnV ← scatterE self.FitnV index pop.FitnV
  let newCV ← cvScatterStep self.CV index pop.CV
  let newPhen ← scatterOptE self.Phen index pop.Phen
  Except.ok { self with
    Chrom := newChrom
    ObjV := some newObjV
    FitnV := newFitnV
    CV := newCV
    Phen := some newPhen
    sizes := newPhen.length }

/-- The check-and-chromosome-write block of `Population.__setitem__`
(source lines 176-187).  All five precondition checks, and the chromosome
write itself, live inside the `if self.Encoding is not None` block; with
`Encoding = None` nothing is checked and the chromosome stays as it is. -/
def Population.setitemChecks (self : Population) (index : List Nat) (pop : Population) :
    Except PopErr (Option Mat) :=
  match self.Encoding with
  | none => Except.ok self.Chrom
  | some _ =>
    if self.Encoding ≠ pop.Encoding then Except.error PopErr.encodingMismatch
    else if !npAllEq self.Field pop.Field then Except.error PopErr.fieldMismatch
    else if index.length ≠ pop.sizes then Except.error PopErr.sizeMismatch
    else
      match self.Chrom with
      | none => Except.error PopErr.chromIsNone
      | some c =>
        if self.CV.isNone != pop.CV.isNone then Except.error PopErr.cvMismatch
        else
          match pop.Chrom with
          | none => Except.error PopErr.typeError
          | some pc => (scatterE c index pc).map some

/-- `Population.__setitem__` (source lines 166-193): the checks (when
`Encoding` is not `None`), then the unconditional writes. -/
def Population.setitem (self : Population) (index : List Nat) (pop : Population) :
    Except PopErr Population := do
  let newChrom ← Population.setitemChecks self index pop
  Population.setitemWrites self index pop newChrom

/-- The check-and-`NewChrom` block of `Population.__add__` (source lines
205-216).  With `Encoding = None` no precondition is checked at all;
otherwise encoding, decode field, presence of both chromosomes and matching
`CV` presence are validated and the chromosomes are concatenated. -/
def Population.addChecks (self pop : Population) : Except PopErr (Option Mat) :=
  match self.Encoding with
  | none => Except.ok none
  | some _ =>
    if self.Encoding ≠ pop.Encoding then Except.error PopErr.encodingMismatch
    else if !npAllEq self.Field pop.Field then Except.error PopErr.fieldMismatch
    else
      match self.Chrom, pop.Chrom with
      | some a, some b =>
        if self.CV.isNone != pop.CV.isNone then Except.error PopErr.cvMismatch
        else Except.ok (some (a ++ b))
      | _, _ => Except.error PopErr.chromIsNone

/-- The conditional `CV` concatenation of `__add__` (source line 224):
`np.vstack([self.CV, pop.CV]) if self.CV is not None else self.CV`. -/
def cvVstackStep (a b : Option Mat) : Except PopErr (Option Mat) :=
  match a with
  | none => Except.ok none
  | some x =>
    match b with
    | none => Except.error PopErr.typeError
    | some y => Except.ok (some (x ++ y))

/-- `Population.__add__` (source lines 195-225): every attribute of the
result is the row-wise `vstack` of self's rows before the other's, built
through the constructor. -/
def Population.add (self pop : Population) : Except PopErr Population := do
  let NewChrom ← Population.addChecks self pop
  let NIND : Int := (self.sizes : Int) + (pop.sizes : Int)
  let newObjV ← npVstack2 self.ObjV pop.ObjV
  let newFitnV := self.FitnV ++ pop.FitnV
  let newCV ← cvVstackStep self.CV pop.CV
  let newPhen ← npVstack2 self.Phen pop.Phen
  Population.init self.Encoding self.Field NIND NewChrom (some newObjV) (some newFitnV)
    newCV (some newPhen)

/-- `Population.__len__` (source lines 227-234). -/
def Population.len (self : Population) : Nat := self.sizes

/-- Row `i` of a possibly-absent matrix. -/
def rowOpt (m : Option Mat) (i : Nat) : Option (List Int) :=
  match m with
  | none => none
  | some mm => mm[i]?

/-- A possibly-absent matrix either is absent or has exactly `n` rows. -/
def rowsOk (m : Option Mat) (n : Nat) : Bool :=
  match m with
  | none => true
  | some x => x.length == n

/-- The row-alignment invariant of the spec: every present attribute matrix
has exactly `sizes` rows. -/
def alignedB (p : Population) : Bool :=
  rowsOk p.Chrom p.sizes && rowsOk p.ObjV p.sizes && (p.FitnV.length == p.sizes) &&
  rowsOk p.CV p.sizes && rowsOk p.Phen p.sizes

/-! ### Basic lemmas about the numpy-style primitives -/

theorem except_bind_ok {ε α β : Type} (a : α) (f : α → Except ε β) :
    (Except.ok a >>= f) = f a := rfl

theorem except_bind_err {ε α β : Type} (e : ε) (f : α → Except ε β) :
    ((Except.error e : Except ε α) >>= f) = Except.error e := rfl

theorem except_bind_ok_iff {ε α β : Type} {e : Except ε α} {f : α → Except ε β} {b : β} :
    e >>= f = Except.ok b ↔ ∃ a, e = Except.ok a ∧ f a = Except.ok b := by
  cases e <;> simp [except_bind_err, except_bind_ok]

theorem gather_length {m : Mat} : ∀ {idx : List Nat} {g : Mat},
    gather m idx = some g → g.length = idx.length := by
  intro idx
  induction idx with
  | nil => intro g h; simp [gather] at h; simp [← h]
  | cons i is ih =>
    intro g h
    unfold gather at h
    cases hm : m[i]? with
    | none => rw [hm] at h; simp at h
    | some r =>
      rw [hm] at h
      cases hg : gather m is with
      | none => rw [hg] at h; simp at h
      | some g2 =>
        rw [hg] at h
        simp only [Option.some.injEq] at h
        subst h
        simp [ih hg]

theorem gather_getElem? {m : Mat} : ∀ {idx : List Nat} {g : Mat},
    gather m idx = some g → ∀ k : Nat, g[k]? = (idx[k]?).bind (fun i => m[i]?) := by
  intro idx
  induction idx with
  | nil =>
    intro g h k
    simp [gather] at h
    subst h
    simp
  | cons i is ih =>
    intro g h k
    unfold gather at h
    cases hm : m[i]? with
    | none => rw [hm] at h; simp at h
    | some r =>
      rw [hm] at h
      cases hg : gather m is with
      | none => rw [hg] at h; simp at h
      | some g2 =>
        rw [hg] at h
        simp only [Option.some.injEq] at h
        subst h
        cases k with
        | zero => simp [hm]
        | succ k => simp [ih hg k]

theorem gather_eq_map {m : Mat} : ∀ {idx : List Nat}, (∀ i ∈ idx, i < m.length) →
    gather m idx = some (idx.map (fun i => m.getD i [])) := by
  intro idx
  induction idx with
  | nil => intro _; rfl
  | cons i is ih =>
    intro h
    have hi : i < m.length := h i (List.mem_cons_self i is)
    have his : ∀ j ∈ is, j < m.length := fun j hj => h j (List.mem_cons_of_mem i hj)
    unfold gather
    rw [List.getElem?_eq_getElem hi, ih his]
    simp [List.getD_eq_getElem?_getD, List.getElem?_eq_getElem hi]

theorem map_getD_range : ∀ (m : Mat), (List.range m.length).map (fun i => m.getD i []) = m := by
  intro m
  induction m with
  | nil => rfl
  | cons a m ih =>
    rw [List.length_cons, List.range_succ_eq_map, List.map_cons, List.map_map]
    have h2 : ((fun i => (a :: m).getD i []) ∘ Nat.succ) = (fun i => m.getD i []) := by
      funext i; rfl
    rw [h2, ih]
    rfl

theorem gather_perm {m : Mat} {shuff : List Nat} {g : Mat}
    (hp : shuff.Perm (List.range m.length)) (h : gather m shuff = some g) : g.Perm m := by
  have hlt : ∀ i ∈ shuff, i < m.length := fun i hi => List.mem_range.mp (hp.mem_iff.mp hi)
  rw [gather_eq_map hlt] at h
  injection h with h2
  rw [← h2]
  have hmap := hp.map (fun i => m.getD i [])
  rw [map_getD_range m] at hmap
  exact hmap

theorem setRows_length : ∀ (idx : List Nat) (v m : Mat), (setRows m idx v).length = m.length
  | [], _, _ => by simp [setRows]
  | _ :: _, [], _ => by simp [setRows]
  | i :: is, r :: rs, m => by
    simp only [setRows]
    rw [setRows_length is rs]
    exact List.length_set m i r

theorem setRows_getElem?_not_mem : ∀ (idx : List Nat) (v m : Mat) (j : Nat), j ∉ idx →
    (setRows m idx v)[j]? = m[j]?
  | [], _, _, _, _ => by simp [setRows]
  | _ :: _, [], _, _, _ => by simp [setRows]
  | i :: is, r :: rs, m, j, hj => by
    simp only [setRows]
    rw [setRows_getElem?_not_mem is rs (m.set i r) j (fun hmem => hj (List.mem_cons_of_mem i hmem))]
    exact List.getElem?_set_ne (fun hij => hj (by rw [← hij]; exact List.mem_cons_self i is))

theorem setRows_getElem?_mem : ∀ (idx : List Nat) (v m : Mat), idx.Nodup →
    ∀ (k j : Nat), idx[k]? = some j → k < v.length → j < m.length →
    (setRows m idx v)[j]? = v[k]?
  | [], v, m, _, k, j, hk, _, _ => by simp at hk
  | i :: is, [], m, _, k, j, _, hkv, _ => by simp at hkv
  | i :: is, r :: rs, m, hnd, k, j, hk, hkv, hjm => by
    simp only [setRows]
    rcases List.nodup_cons.mp hnd with ⟨hi_not, hnd'⟩
    cases k with
    | zero =>
      have hij : i = j := by simpa using hk
      rw [← hij] at hjm ⊢
      rw [setRows_getElem?_not_mem is rs (m.set i r) i hi_not,
        List.getElem?_set_self hjm]
      simp
    | succ k =>
      simp only [List.getElem?_cons_succ] at hk
      rw [setRows_getElem?_mem is rs (m.set i r) hnd' k j hk (by simpa using hkv)
        (by simpa using hjm)]
      simp

instance exceptDecidableEq {ε α : Type} [DecidableEq ε] [DecidableEq α] :
    DecidableEq (Except ε α) := fun a b =>
  match a, b with
  | Except.ok x, Except.ok y =>
    if h : x = y then isTrue (by rw [h]) else isFalse (fun hc => h (Except.ok.inj hc))
  | Except.error x, Except.error y =>
    if h : x = y then isTrue (by rw [h]) else isFalse (fun hc => h (Except.error.inj hc))
  | Except.ok _, Except.error _ => isFalse (fun hc => Except.noConfusion hc)
  | Except.error _, Except.ok _ => isFalse (fun hc => Except.noConfusion hc)

theorem gatherE_ok_iff {m : Mat} {idx : List Nat} {g : Mat} :
    gatherE m idx = Except.ok g ↔ gather m idx = some g := by
  unfold gatherE
  cases hg : gather m idx <;> simp [hg]

theorem gatherE_map_some_ok_iff {m : Mat} {idx : List Nat} {o : Option Mat} :
    (gatherE m idx).map some = Except.ok o ↔ ∃ g, gather m idx = some g ∧ o = some g := by
  unfold gatherE
  cases hg : gather m idx <;> simp [hg, Except.map, eq_comm]

theorem gatherOptE_ok_iff {m : Option Mat} {idx : List Nat} {o : Option Mat} :
    gatherOptE m idx = Except.ok o ↔
      (m = none ∧ o = none) ∨
      (∃ mm g, m = some mm ∧ gather mm idx = some g ∧ o = some g) := by
  cases m with
  | none => simp [gatherOptE, eq_comm]
  | some mm =>
    simp only [gatherOptE, gatherE_map_some_ok_iff]
    simp [eq_comm]

theorem scatterE_ok_iff {m v : Mat} {idx : List Nat} {g : Mat} :
    scatterE m idx v = Except.ok g ↔
      idx.length = v.length ∧ (∀ i ∈ idx, i < m.length) ∧ g = setRows m idx v := by
  unfold scatterE
  split
  next hcond =>
    constructor
    · intro hh
      exact ⟨hcond.1, hcond.2, (Except.ok.inj hh).symm⟩
    · rintro ⟨-, -, rfl⟩
      rfl
  next hcond =>
    simp only [reduceCtorEq, false_iff]
    intro hcon
    exact hcond ⟨hcon.1, hcon.2.1⟩

theorem scatterOptE_ok_iff {m v : Option Mat} {idx : List Nat} {g : Mat} :
    scatterOptE m idx v = Except.ok g ↔
      ∃ mm vv, m = some mm ∧ v = some vv ∧ idx.length = vv.length ∧
        (∀ i ∈ idx, i < mm.length) ∧ g = setRows mm idx vv := by
  cases m <;> cases v <;> simp [scatterOptE, scatterE_ok_iff]

theorem npVstack2_ok_iff {a b : Option Mat} {g : Mat} :
    npVstack2 a b = Except.ok g ↔ ∃ x y, a = some x ∧ b = some y ∧ g = x ++ y := by
  cases a <;> cases b <;> simp [npVstack2, eq_comm]

theorem init_ok_iff {Enc : Option String} {Fld : Option Mat} {NIND : Int}
    {Chrom ObjV FitnV CV Phen : Option Mat} {p : Population} :
    Population.init Enc Fld NIND Chrom ObjV FitnV CV Phen = Except.ok p ↔
      0 ≤ NIND ∧ ¬(Enc.isSome ∧ Fld = none) ∧
      p = { sizes := NIND.toNat
            Encoding := Enc
            Field := match Enc with | none => none | some _ => Fld
            Chrom := match Enc with | none => none | some _ => Chrom
            Lind := match Chrom with | some c => shape1 c | none => 0
            ObjV := ObjV
            FitnV := match FitnV with | some f => f | none => List.replicate NIND.toNat [1]
            CV := CV
            Phen := Phen } := by
  unfold Population.init
  split
  next h => simp [h, not_le.mpr h]
  next h =>
    split
    next h2 => simp [h2]
    next h2 =>
      constructor
      · intro hh
        exact ⟨le_of_not_lt h, h2, (Except.ok.inj hh).symm⟩
      · rintro ⟨-, -, rfl⟩
        rfl


theorem except_map_some_ok_iff {ε α : Type} {e : Except ε α} {o : Option α} :
    e.map some = Except.ok o ↔ ∃ g, e = Except.ok g ∧ o = some g := by
  cases e <;> simp [Except.map, eq_comm]

theorem chromStepGet_ok_iff {p : Population} {idx : List Nat} {o : Option Mat} :
    chromStepGet p idx = Except.ok o ↔
      (p.Encoding = none ∧ o = none) ∨
      (p.Encoding ≠ none ∧ ∃ c g, p.Chrom = some c ∧ gather c idx = some g ∧ o = some g) := by
  cases hE : p.Encoding with
  | none => simp [chromStepGet, hE, eq_comm]
  | some e =>
    cases hC : p.Chrom with
    | none => simp [chromStepGet, hE, hC]
    | some c => simp [chromStepGet, hE, hC, gatherE_map_some_ok_iff]

theorem phenStep_ok_iff {m : Option Mat} {idx : List Nat} {g : Mat} :
    phenStep m idx = Except.ok g ↔ ∃ mm, m = some mm ∧ gather mm idx = some g := by
  cases m <;> simp [phenStep, gatherE_ok_iff]

theorem cvScatterStep_ok_iff {m v : Option Mat} {idx : List Nat} {o : Option Mat} :
    cvScatterStep m idx v = Except.ok o ↔
      (m = none ∧ o = none) ∨
      (∃ cv pcv, m = some cv ∧ v = some pcv ∧ idx.length = pcv.length ∧
        (∀ i ∈ idx, i < cv.length) ∧ o = some (setRows cv idx pcv)) := by
  cases m with
  | none => simp [cvScatterStep, eq_comm]
  | some cv =>
    cases v with
    | none => simp [cvScatterStep]
    | some pcv =>
      simp only [cvScatterStep]
      rw [except_map_some_ok_iff]
      simp only [scatterE_ok_iff]
      constructor
      · rintro ⟨g, ⟨h1, h2, rfl⟩, h3⟩
        exact Or.inr ⟨cv, pcv, rfl, rfl, h1, h2, h3⟩
      · rintro (⟨hc, -⟩ | ⟨cv2, pcv2, hc, hp, h1, h2, h3⟩)
        · cases hc
        · obtain rfl : cv = cv2 := Option.some.inj hc
          obtain rfl : pcv = pcv2 := Option.some.inj hp
          exact ⟨_, ⟨h1, h2, rfl⟩, h3⟩

theorem cvVstackStep_ok_iff {a b : Option Mat} {o : Option Mat} :
    cvVstackStep a b = Except.ok o ↔
      (a = none ∧ o = none) ∨
      (∃ x y, a = some x ∧ b = some y ∧ o = some (x ++ y)) := by
  cases a <;> cases b <;> simp [cvVstackStep, eq_comm]

theorem gatherE_ok_of_lt {m : Mat} {idx : List Nat} (h : ∀ i ∈ idx, i < m.length) :
    gatherE m idx = Except.ok (idx.map (fun i => m.getD i [])) := by
  simp [gatherE, gather_eq_map h]

theorem getitem_ok_inv {p : Population} {idx : List Nat} {q : Population}
    (h : Population.getitem p idx = Except.ok q) :
    q.sizes = idx.length ∧
    q.Encoding = p.Encoding ∧
    (∃ fg, gather p.FitnV idx = some fg ∧ q.FitnV = fg) ∧
    (p.Encoding = none → q.Chrom = none ∧ q.Field = none) ∧
    (p.Encoding ≠ none → ∃ c cg f, p.Chrom = some c ∧ gather c idx = some cg ∧
      q.Chrom = some cg ∧ p.Field = some f ∧ q.Field = some f) ∧
    (p.ObjV = none → q.ObjV = none) ∧
    (∀ m, p.ObjV = some m → ∃ g, gather m idx = some g ∧ q.ObjV = some g) ∧
    (p.CV = none → q.CV = none) ∧
    (∀ m, p.CV = some m → ∃ g, gather m idx = some g ∧ q.CV = some g) ∧
    (∃ ph pg, p.Phen = some ph ∧ gather ph idx = some pg ∧ q.Phen = some pg) := by
  unfold Population.getitem at h
  rw [except_bind_ok_iff] at h
  obtain ⟨NC, hNC, h⟩ := h
  rw [except_bind_ok_iff] at h
  obtain ⟨NF, hNF, h⟩ := h
  rw [except_bind_ok_iff] at h
  obtain ⟨NO, hNO, h⟩ := h
  rw [except_bind_ok_iff] at h
  obtain ⟨NCV, hNCV, h⟩ := h
  rw [except_bind_ok_iff] at h
  obtain ⟨NP, hNP, h⟩ := h
  rw [init_ok_iff] at h
  obtain ⟨-, hnn, rfl⟩ := h
  rw [gatherE_ok_iff] at hNF
  rw [chromStepGet_ok_iff] at hNC
  rw [gatherOptE_ok_iff] at hNO hNCV
  rw [phenStep_ok_iff] at hNP
  obtain ⟨ph, hph, hgph⟩ := hNP
  refine ⟨by simp [gather_length hNF], rfl, ⟨NF, hNF, rfl⟩, ?_, ?_, ?_, ?_, ?_, ?_,
    ⟨ph, NP, hph, hgph, rfl⟩⟩
  · intro hE
    simp [hE]
  · intro hne
    rcases hNC with ⟨hE, -⟩ | ⟨-, c, g, hc, hg, rfl⟩
    · exact absurd hE hne
    · cases hE : p.Encoding with
      | none => exact absurd hE hne
      | some e =>
        cases hField : p.Field with
        | none => exact absurd ⟨by simp [hE], hField⟩ hnn
        | some f => exact ⟨c, g, f, hc, hg, by simp [hE], rfl, by simp [hE, hField]⟩
  · intro hO
    rcases hNO with ⟨-, rfl⟩ | ⟨mm, g, hmm, -, -⟩
    · rfl
    · rw [hO] at hmm; cases hmm
  · intro m hO
    rcases hNO with ⟨hnone, -⟩ | ⟨mm, g, hmm, hg, rfl⟩
    · rw [hO] at hnone; cases hnone
    · rw [hO] at hmm
      obtain rfl : m = mm := Option.some.inj hmm
      exact ⟨g, hg, rfl⟩
  · intro hCV
    rcases hNCV with ⟨-, rfl⟩ | ⟨mm, g, hmm, -, -⟩
    · rfl
    · rw [hCV] at hmm; cases hmm
  · intro m hCV
    rcases hNCV with ⟨hnone, -⟩ | ⟨mm, g, hmm, hg, rfl⟩
    · rw [hCV] at hnone; cases hnone
    · rw [hCV] at hmm
      obtain rfl : m = mm := Option.some.inj hmm
      exact ⟨g, hg, rfl⟩

theorem shuffle_ok_inv {p : Population} {s : List Nat} {q : Population}
    (h : Population.shuffle p s = Except.ok q) :
    q.sizes = p.sizes ∧ q.Encoding = p.Encoding ∧ q.Field = p.Field ∧ q.Lind = p.Lind ∧
    (∃ fg, gather p.FitnV s = some fg ∧ q.FitnV = fg) ∧
    (p.Encoding = none → q.Chrom = none) ∧
    (p.Encoding ≠ none → ∃ c cg, p.Chrom = some c ∧ gather c s = some cg ∧
      q.Chrom = some cg) ∧
    (p.ObjV = none → q.ObjV = none) ∧
    (∀ m, p.ObjV = some m → ∃ g, gather m s = some g ∧ q.ObjV = some g) ∧
    (p.CV = none → q.CV = none) ∧
    (∀ m, p.CV = some m → ∃ g, gather m s = some g ∧ q.CV = some g) ∧
    (∃ ph pg, p.Phen = some ph ∧ gather ph s = some pg ∧ q.Phen = some pg) := by
  unfold Population.shuffle at h
  rw [except_bind_ok_iff] at h
  obtain ⟨NC, hNC, h⟩ := h
  rw [except_bind_ok_iff] at h
  obtain ⟨NO, hNO, h⟩ := h
  rw [except_bind_ok_iff] at h
  obtain ⟨NF, hNF, h⟩ := h
  rw [except_bind_ok_iff] at h
  obtain ⟨NCV, hNCV, h⟩ := h
  rw [except_bind_ok_iff] at h
  obtain ⟨NP, hNP, h⟩ := h
  obtain rfl := Except.ok.inj h
  rw [gatherE_ok_iff] at hNF
  rw [chromStepGet_ok_iff] at hNC
  rw [gatherOptE_ok_iff] at hNO hNCV
  rw [phenStep_ok_iff] at hNP
  obtain ⟨ph, hph, hgph⟩ := hNP
  refine ⟨rfl, rfl, rfl, rfl, ⟨NF, hNF, rfl⟩, ?_, ?_, ?_, ?_, ?_, ?_,
    ⟨ph, NP, hph, hgph, rfl⟩⟩
  · intro hE
    rcases hNC with ⟨-, rfl⟩ | ⟨hne, -⟩
    · rfl
    · exact absurd hE hne
  · intro hne
    rcases hNC with ⟨hE, -⟩ | ⟨-, c, g, hc, hg, rfl⟩
    · exact absurd hE hne
    · exact ⟨c, g, hc, hg, rfl⟩
  · intro hO
    rcases hNO with ⟨-, rfl⟩ | ⟨mm, g, hmm, -, -⟩
    · rfl
    · rw [hO] at hmm; cases hmm
  · intro m hO
    rcases hNO with ⟨hnone, -⟩ | ⟨mm, g, hmm, hg, rfl⟩
    · rw [hO] at hnone; cases hnone
    · rw [hO] at hmm
      obtain rfl : m = mm := Option.some.inj hmm
      exact ⟨g, hg, rfl⟩
  · intro hCV
    rcases hNCV with ⟨-, rfl⟩ | ⟨mm, g, hmm, -, -⟩
    · rfl
    · rw [hCV] at hmm; cases hmm
  · intro m hCV
    rcases hNCV with ⟨hnone, -⟩ | ⟨mm, g, hmm, hg, rfl⟩
    · rw [hCV] at hnone; cases hnone
    · rw [hCV] at hmm
      obtain rfl : m = mm := Option.some.inj hmm
      exact ⟨g, hg, rfl⟩

theorem setitemChecks_ok_inv {p pop : Population} {idx : List Nat} {nc : Option Mat}
    (h : Population.setitemChecks p idx pop = Except.ok nc) :
    (p.Encoding = none ∧ nc = p.Chrom) ∨
    (p.Encoding ≠ none ∧ p.Encoding = pop.Encoding ∧ npAllEq p.Field pop.Field = true ∧
      idx.length = pop.sizes ∧ p.CV.isNone = pop.CV.isNone ∧
      ∃ c pc, p.Chrom = some c ∧ pop.Chrom = some pc ∧ idx.length = pc.length ∧
        (∀ i ∈ idx, i < c.length) ∧ nc = some (setRows c idx pc)) := by
  unfold Population.setitemChecks at h
  cases hE : p.Encoding with
  | none =>
    simp only [hE] at h
    injection h with h2
    exact Or.inl ⟨rfl, h2.symm⟩
  | some e =>
    simp only [hE] at h
    right
    by_cases h1 : some e = pop.Encoding
    case neg => rw [if_pos h1] at h; cases h
    rw [if_neg (not_ne_iff.mpr h1)] at h
    by_cases h2 : npAllEq p.Field pop.Field = true
    case neg =>
      rw [if_pos (by simp [Bool.not_eq_true] at h2; simp [h2])] at h
      cases h
    rw [if_neg (by simp [h2])] at h
    by_cases h3 : idx.length = pop.sizes
    case neg => rw [if_pos h3] at h; cases h
    rw [if_neg (not_ne_iff.mpr h3)] at h
    cases hc : p.Chrom with
    | none => simp only [hc] at h; cases h
    | some c =>
      simp only [hc] at h
      by_cases h4 : p.CV.isNone = pop.CV.isNone
      case neg =>
        rw [if_pos (by simpa [bne_iff_ne] using h4)] at h
        cases h
      rw [if_neg (by simp [bne_iff_ne, h4])] at h
      cases hpc : pop.Chrom with
      | none => simp only [hpc] at h; cases h
      | some pc =>
        simp only [hpc] at h
        rw [except_map_some_ok_iff] at h
        obtain ⟨g, hg, rfl⟩ := h
        rw [scatterE_ok_iff] at hg
        obtain ⟨hlen, hbound, rfl⟩ := hg
        exact ⟨by simp [hE], hE ▸ h1, h2, h3, h4, c, pc, rfl, rfl, hlen, hbound, rfl⟩

theorem setitemWrites_ok_inv {p pop : Population} {idx : List Nat} {nc : Option Mat}
    {q : Population} (h : Population.setitemWrites p idx pop nc = Except.ok q) :
    ∃ om ov pm pv,
      p.ObjV = some om ∧ pop.ObjV = some ov ∧ idx.length = ov.length ∧
        (∀ i ∈ idx, i < om.length) ∧
      p.Phen = some pm ∧ pop.Phen = some pv ∧ idx.length = pv.length ∧
        (∀ i ∈ idx, i < pm.length) ∧
      idx.length = pop.FitnV.length ∧ (∀ i ∈ idx, i < p.FitnV.length) ∧
      q.Chrom = nc ∧ q.ObjV = some (setRows om idx ov) ∧
      q.FitnV = setRows p.FitnV idx pop.FitnV ∧
      q.Phen = some (setRows pm idx pv) ∧ q.sizes = (setRows pm idx pv).length ∧
      q.Encoding = p.Encoding ∧ q.Field = p.Field ∧ q.Lind = p.Lind ∧
      ((p.CV = none ∧ q.CV = none) ∨
       (∃ cv pcv, p.CV = some cv ∧ pop.CV = some pcv ∧ idx.length = pcv.length ∧
         (∀ i ∈ idx, i < cv.length) ∧ q.CV = some (setRows cv idx pcv))) := by
  unfold Population.setitemWrites at h
  rw [except_bind_ok_iff] at h
  obtain ⟨NO, hNO, h⟩ := h
  rw [except_bind_ok_iff] at h
  obtain ⟨NF, hNF, h⟩ := h
  rw [except_bind_ok_iff] at h
  obtain ⟨NCV, hNCV, h⟩ := h
  rw [except_bind_ok_iff] at h
  obtain ⟨NP, hNP, h⟩ := h
  obtain rfl := Except.ok.inj h
  rw [scatterOptE_ok_iff] at hNO hNP
  rw [scatterE_ok_iff] at hNF
  rw [cvScatterStep_ok_iff] at hNCV
  obtain ⟨om, ov, hom, hov, hlo, hbo, rfl⟩ := hNO
  obtain ⟨pm, pv, hpm, hpv, hlp, hbp, rfl⟩ := hNP
  obtain ⟨hlf, hbf, rfl⟩ := hNF
  refine ⟨om, ov, pm, pv, hom, hov, hlo, hbo, hpm, hpv, hlp, hbp, hlf, hbf,
    rfl, rfl, rfl, rfl, rfl, rfl, rfl, rfl, ?_⟩
  rcases hNCV with ⟨hnone, rfl⟩ | ⟨cv, pcv, hcv, hpcv, hlc, hbc, rfl⟩
  · exact Or.inl ⟨hnone, rfl⟩
  · exact Or.inr ⟨cv, pcv, hcv, hpcv, hlc, hbc, rfl⟩

theorem setitem_ok_inv {p pop : Population} {idx : List Nat} {q : Population}
    (h : Population.setitem p idx pop = Except.ok q) :
    ∃ nc, Population.setitemChecks p idx pop = Except.ok nc ∧
      Population.setitemWrites p idx pop nc = Except.ok q := by
  unfold Population.setitem at h
  rw [except_bind_ok_iff] at h
  exact h

theorem addChecks_ok_inv {A B : Population} {nc : Option Mat}
    (h : Population.addChecks A B = Except.ok nc) :
    (A.Encoding = none ∧ nc = none) ∨
    (A.Encoding ≠ none ∧ A.Encoding = B.Encoding ∧ npAllEq A.Field B.Field = true ∧
      A.CV.isNone = B.CV.isNone ∧
      ∃ ca cb, A.Chrom = some ca ∧ B.Chrom = some cb ∧ nc = some (ca ++ cb)) := by
  unfold Population.addChecks at h
  cases hE : A.Encoding with
  | none =>
    simp only [hE] at h
    injection h with h2
    exact Or.inl ⟨rfl, h2.symm⟩
  | some e =>
    simp only [hE] at h
    right
    by_cases h1 : some e = B.Encoding
    case neg => rw [if_pos h1] at h; cases h
    rw [if_neg (not_ne_iff.mpr h1)] at h
    by_cases h2 : npAllEq A.Field B.Field = true
    case neg =>
      rw [if_pos (by simp [Bool.not_eq_true] at h2; simp [h2])] at h
      cases h
    rw [if_neg (by simp [h2])] at h
    cases hca : A.Chrom with
    | none => simp only [hca] at h; cases h
    | some ca =>
      cases hcb : B.Chrom with
      | none => simp only [hca, hcb] at h; cases h
      | some cb =>
        simp only [hca, hcb] at h
        by_cases h3 : A.CV.isNone = B.CV.isNone
        case neg =>
          rw [if_pos (by simpa [bne_iff_ne] using h3)] at h
          cases h
        rw [if_neg (by simp [bne_iff_ne, h3])] at h
        injection h with h4
        exact ⟨by simp [hE], hE ▸ h1, h2, h3, ca, cb, rfl, rfl, h4.symm⟩

theorem add_ok_inv {A B q : Population} (h : Population.add A B = Except.ok q) :
    ∃ oa ob pa pb nc ncv,
      Population.addChecks A B = Except.ok nc ∧
      A.ObjV = some oa ∧ B.ObjV = some ob ∧
      cvVstackStep A.CV B.CV = Except.ok ncv ∧
      A.Phen = some pa ∧ B.Phen = some pb ∧
      Population.init A.Encoding A.Field ((A.sizes : Int) + (B.sizes : Int)) nc
        (some (oa ++ ob)) (some (A.FitnV ++ B.FitnV)) ncv (some (pa ++ pb)) =
        Except.ok q := by
  unfold Population.add at h
  rw [except_bind_ok_iff] at h
  obtain ⟨nc, hnc, h⟩ := h
  rw [except_bind_ok_iff] at h
  obtain ⟨no, hno, h⟩ := h
  rw [except_bind_ok_iff] at h
  obtain ⟨ncv, hncv, h⟩ := h
  rw [except_bind_ok_iff] at h
  obtain ⟨np, hnp, h⟩ := h
  rw [npVstack2_ok_iff] at hno hnp
  obtain ⟨oa, ob, hoa, hob, rfl⟩ := hno
  obtain ⟨pa, pb, hpa, hpb, rfl⟩ := hnp
  exact ⟨oa, ob, pa, pb, nc, ncv, hnc, hoa, hob, hncv, hpa, hpb, h⟩

theorem except_bind_err_iff {ε α β : Type} {e : Except ε α} {f : α → Except ε β} {r : ε} :
    e >>= f = Except.error r ↔
      e = Except.error r ∨ ∃ a, e = Except.ok a ∧ f a = Except.error r := by
  cases e <;> simp [except_bind_ok, except_bind_err]

theorem alignedB_iff {p : Population} : alignedB p = true ↔
    (∀ m, p.Chrom = some m → m.length = p.sizes) ∧
    (∀ m, p.ObjV = some m → m.length = p.sizes) ∧
    p.FitnV.length = p.sizes ∧
    (∀ m, p.CV = some m → m.length = p.sizes) ∧
    (∀ m, p.Phen = some m → m.length = p.sizes) := by
  unfold alignedB rowsOk
  cases p.Chrom <;> cases p.ObjV <;> cases p.CV <;> cases p.Phen <;>
    simp [Bool.and_eq_true, beq_iff_eq, and_assoc, and_comm, and_left_comm]

theorem scatterE_error {m v : Mat} {idx : List Nat} {r : PopErr}
    (h : scatterE m idx v = Except.error r) : r = PopErr.indexError := by
  unfold scatterE at h
  split at h
  · cases h
  · exact (Except.error.inj h).symm

theorem scatterOptE_error {m v : Option Mat} {idx : List Nat} {r : PopErr}
    (h : scatterOptE m idx v = Except.error r) :
    r = PopErr.typeError ∨ r = PopErr.indexError := by
  cases m with
  | none => cases v <;> exact Or.inl (Except.error.inj h).symm
  | some mm =>
    cases v with
    | none => exact Or.inl (Except.error.inj h).symm
    | some vv => exact Or.inr (scatterE_error h)

theorem except_map_err_inv {ε α β : Type} {e : Except ε α} {f : α → β} {r : ε}
    (h : e.map f = Except.error r) : e = Except.error r := by
  cases e with
  | ok a => cases h
  | error x => rw [Except.error.inj h]

theorem cvScatterStep_error {m v : Option Mat} {idx : List Nat} {r : PopErr}
    (h : cvScatterStep m idx v = Except.error r) :
    r = PopErr.typeError ∨ r = PopErr.indexError := by
  cases m with
  | none => cases h
  | some cv =>
    cases v with
    | none => exact Or.inl (Except.error.inj h).symm
    | some pcv =>
      have h2 := except_map_err_inv (by simpa [cvScatterStep] using h)
      exact Or.inr (scatterE_error h2)

theorem setitemWrites_error_classified {p pop : Population} {idx : List Nat}
    {nc : Option Mat} {r : PopErr}
    (h : Population.setitemWrites p idx pop nc = Except.error r) :
    r = PopErr.typeError ∨ r = PopErr.indexError := by
  unfold Population.setitemWrites at h
  rw [except_bind_err_iff] at h
  rcases h with h | ⟨NO, -, h⟩
  · exact scatterOptE_error h
  rw [except_bind_err_iff] at h
  rcases h with h | ⟨NF, -, h⟩
  · exact Or.inr (scatterE_error h)
  rw [except_bind_err_iff] at h
  rcases h with h | ⟨NCV, -, h⟩
  · exact cvScatterStep_error h
  rw [except_bind_err_iff] at h
  rcases h with h | ⟨NP, -, h⟩
  · exact scatterOptE_error h
  cases h

theorem getitem_isOk {p : Population} {idx : List Nat}
    (hIdx : ∀ i ∈ idx, i < p.sizes) (hAl : alignedB p = true)
    (hPhen : p.Phen.isSome) (hChrom : p.Encoding ≠ none → p.Chrom.isSome)
    (hFld : p.Encoding ≠ none → p.Field.isSome) :
    ∃ q, Population.getitem p idx = Except.ok q := by
  obtain ⟨hAc, hAo, hAf, hAcv, hAp⟩ := alignedB_iff.mp hAl
  have hChromOk : ∃ nc, chromStepGet p idx = Except.ok nc := by
    cases hE : p.Encoding with
    | none => exact ⟨none, by simp [chromStepGet, hE]⟩
    | some e =>
      obtain ⟨c, hc⟩ := Option.isSome_iff_exists.mp (hChrom (by simp [hE]))
      have hb : ∀ i ∈ idx, i < c.length := fun i hi => (hAc c hc) ▸ hIdx i hi
      exact ⟨some (idx.map (fun i => c.getD i [])),
        by simp [chromStepGet, hE, hc, gatherE_ok_of_lt hb, Except.map]⟩
  obtain ⟨nc, hnc⟩ := hChromOk
  have hFg := gatherE_ok_of_lt
    (show ∀ i ∈ idx, i < p.FitnV.length from fun i hi => hAf ▸ hIdx i hi)
  have hObjOk : ∃ no, gatherOptE p.ObjV idx = Except.ok no := by
    cases hO : p.ObjV with
    | none => exact ⟨none, by simp [gatherOptE, hO]⟩
    | some m =>
      have hb : ∀ i ∈ idx, i < m.length := fun i hi => (hAo m hO) ▸ hIdx i hi
      exact ⟨some (idx.map (fun i => m.getD i [])),
        by simp [gatherOptE, hO, gatherE_ok_of_lt hb, Except.map]⟩
  obtain ⟨no, hno⟩ := hObjOk
  have hCvOk : ∃ ncv, gatherOptE p.CV idx = Except.ok ncv := by
    cases hO : p.CV with
    | none => exact ⟨none, by simp [gatherOptE, hO]⟩
    | some m =>
      have hb : ∀ i ∈ idx, i < m.length := fun i hi => (hAcv m hO) ▸ hIdx i hi
      exact ⟨some (idx.map (fun i => m.getD i [])),
        by simp [gatherOptE, hO, gatherE_ok_of_lt hb, Except.map]⟩
  obtain ⟨ncv, hncv⟩ := hCvOk
  obtain ⟨ph, hph⟩ := Option.isSome_iff_exists.mp hPhen
  have hbp : ∀ i ∈ idx, i < ph.length := fun i hi => (hAp ph hph) ▸ hIdx i hi
  have hPg : phenStep p.Phen idx =
      Except.ok (idx.map (fun i => ph.getD i [])) := by
    simp [phenStep, hph, gatherE_ok_of_lt hbp]
  unfold Population.getitem
  simp only [hnc, hFg, hno, hncv, hPg, except_bind_ok]
  refine ⟨_, init_ok_iff.mpr ⟨Int.natCast_nonneg _, ?_, rfl⟩⟩
  rintro ⟨hs, hfn⟩
  obtain ⟨f, hf⟩ := Option.isSome_iff_exists.mp (hFld (Option.isSome_iff_ne_none.mp hs))
  rw [hf] at hfn
  cases hfn

theorem shuffle_isOk {p : Population} {s : List Nat}
    (hIdx : ∀ i ∈ s, i < p.sizes) (hAl : alignedB p = true)
    (hPhen : p.Phen.isSome) (hChrom : p.Encoding ≠ none → p.Chrom.isSome) :
    ∃ q, Population.shuffle p s = Except.ok q := by
  obtain ⟨hAc, hAo, hAf, hAcv, hAp⟩ := alignedB_iff.mp hAl
  have hChromOk : ∃ nc, chromStepGet p s = Except.ok nc := by
    cases hE : p.Encoding with
    | none => exact ⟨none, by simp [chromStepGet, hE]⟩
    | some e =>
      obtain ⟨c, hc⟩ := Option.isSome_iff_exists.mp (hChrom (by simp [hE]))
      have hb : ∀ i ∈ s, i < c.length := fun i hi => (hAc c hc) ▸ hIdx i hi
      exact ⟨some (s.map (fun i => c.getD i [])),
        by simp [chromStepGet, hE, hc, gatherE_ok_of_lt hb, Except.map]⟩
  obtain ⟨nc, hnc⟩ := hChromOk
  have hFg := gatherE_ok_of_lt
    (show ∀ i ∈ s, i < p.FitnV.length from fun i hi => hAf ▸ hIdx i hi)
  have hObjOk : ∃ no, gatherOptE p.ObjV s = Except.ok no := by
    cases hO : p.ObjV with
    | none => exact ⟨none, by simp [gatherOptE, hO]⟩
    | some m =>
      have hb : ∀ i ∈ s, i < m.length := fun i hi => (hAo m hO) ▸ hIdx i hi
      exact ⟨some (s.map (fun i => m.getD i [])),
        by simp [gatherOptE, hO, gatherE_ok_of_lt hb, Except.map]⟩
  obtain ⟨no, hno⟩ := hObjOk
  have hCvOk : ∃ ncv, gatherOptE p.CV s = Except.ok ncv := by
    cases hO : p.CV with
    | none => exact ⟨none, by simp [gatherOptE, hO]⟩
    | some m =>
      have hb : ∀ i ∈ s, i < m.length := fun i hi => (hAcv m hO) ▸ hIdx i hi
      exact ⟨some (s.map (fun i => m.getD i [])),
        by simp [gatherOptE, hO, gatherE_ok_of_lt hb, Except.map]⟩
  obtain ⟨ncv, hncv⟩ := hCvOk
  obtain ⟨ph, hph⟩ := Option.isSome_iff_exists.mp hPhen
  have hbp : ∀ i ∈ s, i < ph.length := fun i hi => (hAp ph hph) ▸ hIdx i hi
  have hPg : phenStep p.Phen s = Except.ok (s.map (fun i => ph.getD i [])) := by
    simp [phenStep, hph, gatherE_ok_of_lt hbp]
  unfold Population.shuffle
  simp only [hnc, hFg, hno, hncv, hPg, except_bind_ok]
  exact ⟨_, rfl⟩

theorem add_isOk {A B : Population}
    (hE : A.Encoding = B.Encoding) (hF : npAllEq A.Field B.Field = true)
    (hFld : A.Encoding ≠ none → A.Field.isSome)
    (hCa : A.Encoding ≠ none → A.Chrom.isSome)
    (hCb : A.Encoding ≠ none → B.Chrom.isSome)
    (hCV : A.CV.isNone = B.CV.isNone)
    (hOa : A.ObjV.isSome) (hOb : B.ObjV.isSome)
    (hPa : A.Phen.isSome) (hPb : B.Phen.isSome) :
    ∃ q, Population.add A B = Except.ok q := by
  have hChecks : ∃ nc, Population.addChecks A B = Except.ok nc := by
    cases hEe : A.Encoding with
    | none => exact ⟨none, by simp [Population.addChecks, hEe]⟩
    | some e =>
      obtain ⟨ca, hca⟩ := Option.isSome_iff_exists.mp (hCa (by simp [hEe]))
      obtain ⟨cb, hcb⟩ := Option.isSome_iff_exists.mp (hCb (by simp [hEe]))
      refine ⟨some (ca ++ cb), ?_⟩
      unfold Population.addChecks
      simp only [hEe, hca, hcb]
      rw [if_neg (not_ne_iff.mpr (hEe ▸ hE)), if_neg (by simp [hF]),
        if_neg (by simp [bne_iff_ne, hCV])]
  obtain ⟨nc, hnc⟩ := hChecks
  obtain ⟨oa, hoa⟩ := Option.isSome_iff_exists.mp hOa
  obtain ⟨ob, hob⟩ := Option.isSome_iff_exists.mp hOb
  obtain ⟨pa, hpa⟩ := Option.isSome_iff_exists.mp hPa
  obtain ⟨pb, hpb⟩ := Option.isSome_iff_exists.mp hPb
  have hObj : npVstack2 A.ObjV B.ObjV = Except.ok (oa ++ ob) := by
    simp [npVstack2, hoa, hob]
  have hPhe : npVstack2 A.Phen B.Phen = Except.ok (pa ++ pb) := by
    simp [npVstack2, hpa, hpb]
  have hCv : ∃ ncv, cvVstackStep A.CV B.CV = Except.ok ncv := by
    cases hA : A.CV with
    | none => exact ⟨none, by simp [cvVstackStep, hA]⟩
    | some va =>
      have : B.CV.isSome := by
        rw [hA] at hCV
        simp only [Option.isNone_some] at hCV
        cases hB : B.CV with
        | none => rw [hB] at hCV; simp at hCV
        | some vb => simp
      obtain ⟨vb, hvb⟩ := Option.isSome_iff_exists.mp this
      exact ⟨some (va ++ vb), by simp [cvVstackStep, hA, hvb]⟩
  obtain ⟨ncv, hncv⟩ := hCv
  unfold Population.add
  simp only [hnc, hObj, hncv, hPhe, except_bind_ok]
  refine ⟨_, init_ok_iff.mpr ⟨by positivity, ?_, rfl⟩⟩
  rintro ⟨hs, hfn⟩
  obtain ⟨f, hf⟩ := Option.isSome_iff_exists.mp (hFld (Option.isSome_iff_ne_none.mp hs))
  rw [hf] at hfn
  cases hfn

/-! ### Concrete example populations used by witnesses and counterexamples -/

/-- A size-2 `Encoding = None` population (no chromosome-related data). -/
def exSelfNone : Population :=
  ⟨2, none, none, none, 0, some [[0], [1]], [[1], [1]], none, some [[0], [1]]⟩

/-- An `Encoding = None` population whose `sizes` field (3) disagrees with
its 2-row matrices; no Population operation ever validated that. -/
def exPopNone3 : Population :=
  ⟨3, none, none, none, 0, some [[5], [6]], [[9], [9]], none, some [[7], [8]]⟩

/-- A size-2 initialized `'RI'` population. -/
def exSelfRI : Population :=
  ⟨2, some "RI", some [[0, 0]], some [[1, 2], [3, 4]], 2, some [[0], [0]],
    [[1], [1]], none, some [[1, 2], [3, 4]]⟩

/-- A size-3 initialized `'RI'` population with the same decode field. -/
def exPopRI3 : Population :=
  ⟨3, some "RI", some [[0, 0]], some [[1, 2], [3, 4], [5, 6]], 2,
    some [[1], [1], [1]], [[1], [1], [1]], none, some [[1, 2], [3, 4], [5, 6]]⟩

/-- A size-1 `'RI'` population whose phenotype has not been computed. -/
def exRIneedsDecode : Population :=
  ⟨1, some "RI", some [[0]], some [[7]], 1, none, [[1]], none, none⟩

/-! ### Claim theorems -/

/-- C8 (code bug exhibited): constructing with `Encoding = None` and a
supplied 2-column genotype argument yields a Population whose genotype is
forced absent (`Chrom = none`) yet whose `Lind` is 2, not 0 — `__init__`
line 73 reads `Chrom.shape[1]` off the *argument*, not the stored
`self.Chrom`, contradicting the invariant `chromosomeLength = 0` when
genotype is absent. -/
theorem init_encoding_none_lind_bug :
    Population.init none none 1 (some [[1, 2]]) none none none none =
      Except.ok ⟨1, none, none, none, 2, none, [[1]], none, none⟩ := by
  rfl

/-- C9: decoding with scheme `'RI'` or `'P'` returns exactly the genotype
matrix (`Phen = self.Chrom.copy()`), and decoding with any scheme outside
`'BG'`/`'RI'`/`'P'` — including `None` — raises the unsupported-encoding
error, whatever the codec collaborator is. -/
theorem decoding_self_and_unsupported (bs2ri : Option Mat → Option Mat → Mat)
    (p : Population) (c : Mat) :
    ((p.Encoding = some "RI" ∨ p.Encoding = some "P") → p.Chrom = some c →
      Population.decoding bs2ri p = Except.ok c) ∧
    (p.Encoding ≠ some "BG" → p.Encoding ≠ some "RI" → p.Encoding ≠ some "P" →
      Population.decoding bs2ri p = Except.error PopErr.unsupportedEncoding) := by
  constructor
  · intro hE hC
    have hBG : ¬(p.Encoding = some "BG") := by
      rcases hE with h | h <;> rw [h] <;> decide
    unfold Population.decoding
    rw [if_neg hBG, if_pos hE, hC]
  · intro h1 h2 h3
    unfold Population.decoding
    rw [if_neg h1, if_neg (not_or.mpr ⟨h2, h3⟩)]

/-- Witness for C9 at concrete populations: an `'RI'` population decodes to
its own chromosome, and an `Encoding = None` population raises. -/
theorem decoding_self_and_unsupported_witness :
    Population.decoding (fun _ _ => []) exRIneedsDecode = Except.ok [[7]] ∧
    Population.decoding (fun _ _ => []) exSelfNone =
      Except.error PopErr.unsupportedEncoding :=
  ⟨(decoding_self_and_unsupported (fun _ _ => []) exRIneedsDecode [[7]]).1
      (Or.inl rfl) rfl,
   (decoding_self_and_unsupported (fun _ _ => []) exSelfNone []).2
      (by decide) (by decide) (by decide)⟩

/-- C4 counterexample: the claim quantifies over *every* Population, but
with `Encoding = None` `__setitem__` performs no size check at all — here an
index sequence of length 2 against a source whose `sizes` is 3 succeeds
instead of raising `SizeMismatchError`. -/
theorem setitem_size_mismatch_cex :
    Population.setitem exSelfNone [0, 1] exPopNone3 =
      Except.ok ⟨2, none, none, none, 0, some [[5], [6]], [[9], [9]], none,
        some [[7], [8]]⟩ := by
  rfl

/-- C4 (amended): for a Population whose `Encoding` is not `None` and whose
encoding and decode field agree with the source's, indexed assignment with an
index sequence whose length differs from the source's `sizes` raises
`SizeMismatchError`; the check is the third one performed, before any row of
any attribute is written, so the operation returns the bare error. -/
theorem setitem_size_mismatch_raises (p pop : Population) (idx : List Nat) (e : String)
    (hE : p.Encoding = some e) (hEq : pop.Encoding = some e)
    (hF : npAllEq p.Field pop.Field = true) (hlen : idx.length ≠ pop.sizes) :
    Population.setitem p idx pop = Except.error PopErr.sizeMismatch := by
  have hchecks : Population.setitemChecks p idx pop = Except.error PopErr.sizeMismatch := by
    unfold Population.setitemChecks
    simp only [hE, hEq]
    rw [if_neg (not_ne_iff.mpr rfl), if_neg (by simp [hF]), if_pos hlen]
  unfold Population.setitem
  simp only [hchecks, except_bind_err]

/-- Witness for the amended C4: an index sequence of length 2 against a
source of size 3, on matching `'RI'` populations, raises the size-mismatch
error. -/
theorem setitem_size_mismatch_raises_witness :
    Population.setitem exSelfRI [0, 1] exPopRI3 = Except.error PopErr.sizeMismatch :=
  setitem_size_mismatch_raises exSelfRI exPopRI3 [0, 1] "RI" rfl rfl (by decide) (by decide)

/-- C10: with `Encoding = None`, `__setitem__` performs none of the five
precondition checks — it can only fail inside the numpy writes themselves
(a `None` operand or a bad index), never with the size-mismatch,
CV-mismatch, encoding-mismatch, field-mismatch or chromosome-missing
errors — and on success the rows selected by the index sequence are written
directly from the source population, the chromosome is untouched, and
`sizes` is recomputed as the row count of the resulting phenotype. -/
theorem setitem_none_encoding_unchecked (p pop : Population) (idx : List Nat)
    (hE : p.Encoding = none) (hnd : idx.Nodup) :
    (∀ r, Population.setitem p idx pop = Except.error r →
      r = PopErr.typeError ∨ r = PopErr.indexError) ∧
    (∀ q, Population.setitem p idx pop = Except.ok q →
      q.Chrom = p.Chrom ∧
      (∃ ph, q.Phen = some ph ∧ q.sizes = ph.length) ∧
      (∀ k j : Nat, idx[k]? = some j →
        rowOpt q.ObjV j = rowOpt pop.ObjV k ∧
        q.FitnV[j]? = pop.FitnV[k]? ∧
        rowOpt q.Phen j = rowOpt pop.Phen k ∧
        (p.CV ≠ none → rowOpt q.CV j = rowOpt pop.CV k))) := by
  have hchecks : Population.setitemChecks p idx pop = Except.ok p.Chrom := by
    unfold Population.setitemChecks
    simp only [hE]
  constructor
  · intro r hr
    unfold Population.setitem at hr
    rw [except_bind_err_iff] at hr
    rcases hr with hr | ⟨nc, -, hr⟩
    · rw [hchecks] at hr; cases hr
    · exact setitemWrites_error_classified hr
  · intro q hq
    obtain ⟨nc, hnc, hw⟩ := setitem_ok_inv hq
    rw [hchecks] at hnc
    obtain rfl : p.Chrom = nc := Except.ok.inj hnc
    obtain ⟨om, ov, pm, pv, hom, hov, hlo, hbo, hpm, hpv, hlp, hbp, hlf, hbf,
      hqc, hqo, hqf, hqp, hqs, -, -, -, hcv⟩ := setitemWrites_ok_inv hw
    refine ⟨hqc, ⟨setRows pm idx pv, hqp, hqs⟩, ?_⟩
    intro k j hkj
    have hjmem : j ∈ idx := List.getElem?_mem hkj
    obtain ⟨hk, -⟩ := List.getElem?_eq_some_iff.mp hkj
    refine ⟨?_, ?_, ?_, ?_⟩
    · rw [hqo, hov]
      simp only [rowOpt]
      exact setRows_getElem?_mem idx ov om hnd k j hkj (hlo ▸ hk) (hbo j hjmem)
    · rw [hqf]
      exact setRows_getElem?_mem idx pop.FitnV p.FitnV hnd k j hkj (hlf ▸ hk) (hbf j hjmem)
    · rw [hqp, hpv]
      simp only [rowOpt]
      exact setRows_getElem?_mem idx pv pm hnd k j hkj (hlp ▸ hk) (hbp j hjmem)
    · intro hne
      rcases hcv with ⟨hnone, -⟩ | ⟨cv, pcv, hcva, hcvb, hlc, hbc, hqcv⟩
      · exact absurd hnone hne
      · rw [hqcv, hcvb]
        simp only [rowOpt]
        exact setRows_getElem?_mem idx pcv cv hnd k j hkj (hlc ▸ hk) (hbc j hjmem)

/-- Witness for C10: a length-2 index sequence against a source whose
`sizes` field is 3 succeeds on an `Encoding = None` population (no check
fires), and the row written at self row 1 is source row 0. -/
theorem setitem_none_encoding_unchecked_witness :
    (⟨2, none, none, none, 0, some [[6], [5]], [[9], [9]], none,
        some [[8], [7]]⟩ : Population).Chrom = exSelfNone.Chrom ∧
    rowOpt (⟨2, none, none, none, 0, some [[6], [5]], [[9], [9]], none,
        some [[8], [7]]⟩ : Population).ObjV 1 = rowOpt exPopNone3.ObjV 0 := by
  have h := (setitem_none_encoding_unchecked exSelfNone exPopNone3 [1, 0]
    rfl (by decide)).2
    ⟨2, none, none, none, 0, some [[6], [5]], [[9], [9]], none, some [[8], [7]]⟩
    (by rfl)
  exact ⟨h.1, (h.2.2 0 1 rfl).1⟩

/-- A size-1 `'RI'` population with the same decode field as `exSelfRI`,
used as an assignment source. -/
def exPopRI1 : Population :=
  ⟨1, some "RI", some [[0, 0]], some [[9, 9]], 2, some [[5]], [[3]], none,
    some [[9, 9]]⟩

/-- C5: whenever indexed assignment succeeds, every row of every attribute
of self whose index is not in the index sequence is unchanged — only the
rows listed in the index sequence are overwritten. -/
theorem setitem_preserves_untouched_rows (p pop : Population) (idx : List Nat)
    (q : Population) (h : Population.setitem p idx pop = Except.ok q) :
    ∀ j : Nat, j ∉ idx →
      rowOpt q.Chrom j = rowOpt p.Chrom j ∧
      rowOpt q.ObjV j = rowOpt p.ObjV j ∧
      q.FitnV[j]? = p.FitnV[j]? ∧
      rowOpt q.CV j = rowOpt p.CV j ∧
      rowOpt q.Phen j = rowOpt p.Phen j := by
  obtain ⟨nc, hnc, hw⟩ := setitem_ok_inv h
  obtain ⟨om, ov, pm, pv, hom, hov, hlo, hbo, hpm, hpv, hlp, hbp, hlf, hbf,
    hqc, hqo, hqf, hqp, hqs, -, -, -, hcv⟩ := setitemWrites_ok_inv hw
  intro j hj
  refine ⟨?_, ?_, ?_, ?_, ?_⟩
  · rcases setitemChecks_ok_inv hnc with ⟨-, rfl⟩ |
      ⟨-, -, -, -, -, c, pc, hc, hpc, -, -, rfl⟩
    · rw [hqc]
    · rw [hqc, hc]
      simp only [rowOpt]
      exact setRows_getElem?_not_mem idx pc c j hj
  · rw [hqo, hom]
    simp only [rowOpt]
    exact setRows_getElem?_not_mem idx ov om j hj
  · rw [hqf]
    exact setRows_getElem?_not_mem idx pop.FitnV p.FitnV j hj
  · rcases hcv with ⟨hnone, hqcv⟩ | ⟨cv, pcv, hcva, hcvb, -, -, hqcv⟩
    · rw [hqcv, hnone]
    · rw [hqcv, hcva]
      simp only [rowOpt]
      exact setRows_getElem?_not_mem idx pcv cv j hj
  · rw [hqp, hpm]
    simp only [rowOpt]
    exact setRows_getElem?_not_mem idx pv pm j hj

/-- Witness for C5: assigning a size-1 source into row 0 of a size-2 `'RI'`
population leaves row 1 of every attribute unchanged. -/
theorem setitem_preserves_untouched_rows_witness :
    rowOpt (⟨2, some "RI", some [[0, 0]], some [[9, 9], [3, 4]], 2, some [[5], [0]],
        [[3], [1]], none, some [[9, 9], [3, 4]]⟩ : Population).ObjV 1 =
      rowOpt exSelfRI.ObjV 1 ∧
    (⟨2, some "RI", some [[0, 0]], some [[9, 9], [3, 4]], 2, some [[5], [0]],
        [[3], [1]], none, some [[9, 9], [3, 4]]⟩ : Population).FitnV[1]? =
      exSelfRI.FitnV[1]? := by
  have h := setitem_preserves_untouched_rows exSelfRI exPopRI1 [0]
    ⟨2, some "RI", some [[0, 0]], some [[9, 9], [3, 4]], 2, some [[5], [0]],
      [[3], [1]], none, some [[9, 9], [3, 4]]⟩ (by rfl) 1 (by decide)
  exact ⟨h.2.1, h.2.2.1⟩

/-- C2: for an initialized Population with present phenotype (fitness is
always present) and a sequence of valid 0-based row indices — repetition and
omission allowed — the indexed view succeeds, its size equals the length of
the index sequence, and row `k` of every present attribute of the view
equals row `idx[k]` of the corresponding attribute of the source. -/
theorem getitem_slice_gather (p : Population) (idx : List Nat)
    (hIdx : ∀ i ∈ idx, i < p.sizes) (hAl : alignedB p = true)
    (hPhen : p.Phen.isSome)
    (hChrom : p.Encoding ≠ none → p.Chrom.isSome)
    (hChromNone : p.Encoding = none → p.Chrom = none)
    (hFld : p.Encoding ≠ none → p.Field.isSome) :
    ∃ q, Population.getitem p idx = Except.ok q ∧ q.sizes = idx.length ∧
      ∀ k j : Nat, idx[k]? = some j →
        rowOpt q.Phen k = rowOpt p.Phen j ∧
        rowOpt q.Chrom k = rowOpt p.Chrom j ∧
        rowOpt q.ObjV k = rowOpt p.ObjV j ∧
        q.FitnV[k]? = p.FitnV[j]? ∧
        rowOpt q.CV k = rowOpt p.CV j := by
  obtain ⟨q, hq⟩ := getitem_isOk hIdx hAl hPhen hChrom hFld
  obtain ⟨hsz, hEnc, ⟨fg, hfg, hqf⟩, hnone, hsome, hOn, hOs, hCn, hCs,
    ⟨ph, pg, hph, hgph, hqp⟩⟩ := getitem_ok_inv hq
  refine ⟨q, hq, hsz, ?_⟩
  intro k j hkj
  refine ⟨?_, ?_, ?_, ?_, ?_⟩
  · rw [hqp, hph]
    simp only [rowOpt]
    rw [gather_getElem? hgph k, hkj]
    rfl
  · cases hE : p.Encoding with
    | none =>
      rw [(hnone hE).1, hChromNone hE]
      rfl
    | some e =>
      obtain ⟨c, cg, f, hc, hcg, hqc, -, -⟩ := hsome (by simp [hE])
      rw [hqc, hc]
      simp only [rowOpt]
      rw [gather_getElem? hcg k, hkj]
      rfl
  · cases hO : p.ObjV with
    | none => rw [hOn hO]; rfl
    | some m =>
      obtain ⟨g, hg, hqo⟩ := hOs m hO
      rw [hqo]
      simp only [rowOpt]
      rw [gather_getElem? hg k, hkj]
      rfl
  · rw [hqf, gather_getElem? hfg k, hkj]
    rfl
  · cases hC : p.CV with
    | none => rw [hCn hC]; rfl
    | some m =>
      obtain ⟨g, hg, hqo⟩ := hCs m hC
      rw [hqo]
      simp only [rowOpt]
      rw [gather_getElem? hg k, hkj]
      rfl

/-- Witness for C2: slicing the size-2 `'RI'` population with index
sequence `[1, 0, 1]` (repetition allowed) gives a size-3 view whose
phenotype row 0 is the source's phenotype row 1. -/
theorem getitem_slice_gather_witness :
    (⟨3, some "RI", some [[0, 0]], some [[3, 4], [1, 2], [3, 4]], 2,
        some [[0], [0], [0]], [[1], [1], [1]], none,
        some [[3, 4], [1, 2], [3, 4]]⟩ : Population).sizes = 3 ∧
    rowOpt (⟨3, some "RI", some [[0, 0]], some [[3, 4], [1, 2], [3, 4]], 2,
        some [[0], [0], [0]], [[1], [1], [1]], none,
        some [[3, 4], [1, 2], [3, 4]]⟩ : Population).Phen 0 =
      rowOpt exSelfRI.Phen 1 := by
  obtain ⟨q, hq, hsz, hrows⟩ := getitem_slice_gather exSelfRI [1, 0, 1]
    (by decide) (by decide) (by decide) (by decide) (by decide) (by decide)
  have hlit : Population.getitem exSelfRI [1, 0, 1] =
      Except.ok ⟨3, some "RI", some [[0, 0]], some [[3, 4], [1, 2], [3, 4]], 2,
        some [[0], [0], [0]], [[1], [1], [1]], none,
        some [[3, 4], [1, 2], [3, 4]]⟩ := by rfl
  rw [hq] at hlit
  obtain rfl := Except.ok.inj hlit
  exact ⟨hsz, (hrows 0 1 rfl).1⟩

/-- C7 counterexample: on a Population whose optional phenotype is absent
(objectiveValues also absent), the indexed view does not succeed with those
attributes absent — `self.Phen[index]` subscripts `None` and raises. -/
theorem getitem_absent_phen_cex :
    Population.getitem ⟨1, none, none, none, 0, none, [[1]], none, none⟩ [0] =
      Except.error PopErr.typeError := by
  rfl

/-- C7 (amended): a successful indexed view preserves the presence/absence
state of `ObjV` and `CV` exactly; the phenotype, however, must be present in
the source for the view to succeed at all (and is then present in the view):
gathering an absent `ObjV`/`CV` is a no-op, but gathering an absent
phenotype is an error. -/
theorem getitem_presence_passthrough (p : Population) (idx : List Nat)
    (q : Population) (h : Population.getitem p idx = Except.ok q) :
    q.ObjV.isNone = p.ObjV.isNone ∧ q.CV.isNone = p.CV.isNone ∧
    p.Phen.isSome ∧ q.Phen.isSome := by
  obtain ⟨-, -, -, -, -, hOn, hOs, hCn, hCs, ⟨ph, pg, hph, hgph, hqp⟩⟩ :=
    getitem_ok_inv h
  refine ⟨?_, ?_, by simp [hph], by simp [hqp]⟩
  · cases hO : p.ObjV with
    | none => simp [hOn hO, hO]
    | some m =>
      obtain ⟨g, -, hqo⟩ := hOs m hO
      simp [hqo, hO]
  · cases hC : p.CV with
    | none => simp [hCn hC, hC]
    | some m =>
      obtain ⟨g, -, hqo⟩ := hCs m hC
      simp [hqo, hC]

/-- Witness for the amended C7: a view of the `Encoding = None` population
keeps `ObjV` present-as-before, and the source phenotype was present. -/
theorem getitem_presence_passthrough_witness :
    (⟨1, none, none, none, 0, some [[0]], [[1]], none, some [[0]]⟩ :
        Population).ObjV.isNone = exSelfNone.ObjV.isNone ∧
    exSelfNone.Phen.isSome := by
  have h := getitem_presence_passthrough exSelfNone [0]
    ⟨1, none, none, none, 0, some [[0]], [[1]], none, some [[0]]⟩ (by rfl)
  exact ⟨h.1, h.2.2.1⟩

/-- C3: for two Populations satisfying the merge preconditions (same
encoding, `np.all`-equal decode fields, both chromosomes present when the
scheme is not `None`, matching `CV` presence) whose objective and phenotype
matrices are present and row-aligned, the merge succeeds with size the sum
of the sizes; every attribute is the row-wise concatenation with self's rows
first, so rows `0..A.sizes-1` equal A's rows and rows `A.sizes..` equal B's;
fitness is concatenated as-is, not reset. -/
theorem add_merge_concat (A B : Population)
    (hE : A.Encoding = B.Encoding) (hF : npAllEq A.Field B.Field = true)
    (hFld : A.Encoding ≠ none → A.Field.isSome)
    (hCa : A.Encoding ≠ none → A.Chrom.isSome)
    (hCb : A.Encoding ≠ none → B.Chrom.isSome)
    (hCV : A.CV.isNone = B.CV.isNone)
    (oa ob pa pb : Mat) (hOa : A.ObjV = some oa) (hOb : B.ObjV = some ob)
    (hPa : A.Phen = some pa) (hPb : B.Phen = some pb)
    (hAlA : alignedB A = true) (hAlB : alignedB B = true) :
    ∃ q, Population.add A B = Except.ok q ∧
      q.sizes = A.sizes + B.sizes ∧
      q.FitnV = A.FitnV ++ B.FitnV ∧
      q.ObjV = some (oa ++ ob) ∧
      q.Phen = some (pa ++ pb) ∧
      (A.Encoding = none → q.Chrom = none) ∧
      (∀ ca cb, A.Chrom = some ca → B.Chrom = some cb → A.Encoding ≠ none →
        q.Chrom = some (ca ++ cb)) ∧
      (A.CV = none → q.CV = none) ∧
      (∀ va vb, A.CV = some va → B.CV = some vb → q.CV = some (va ++ vb)) ∧
      (∀ i, i < A.sizes →
        rowOpt q.Phen i = rowOpt A.Phen i ∧ rowOpt q.ObjV i = rowOpt A.ObjV i ∧
        q.FitnV[i]? = A.FitnV[i]?) ∧
      (∀ j, j < B.sizes →
        rowOpt q.Phen (A.sizes + j) = rowOpt B.Phen j ∧
        rowOpt q.ObjV (A.sizes + j) = rowOpt B.ObjV j ∧
        q.FitnV[A.sizes + j]? = B.FitnV[j]?) := by
  obtain ⟨hAc, hAo, hAf, hAcv, hAp⟩ := alignedB_iff.mp hAlA
  obtain ⟨hBc, hBo, hBf, hBcv, hBp⟩ := alignedB_iff.mp hAlB
  obtain ⟨q, hq⟩ := add_isOk hE hF hFld hCa hCb hCV (by simp [hOa]) (by simp [hOb])
    (by simp [hPa]) (by simp [hPb])
  obtain ⟨oa2, ob2, pa2, pb2, nc, ncv, hnc, hoa2, hob2, hncv, hpa2, hpb2, hinit⟩ :=
    add_ok_inv hq
  obtain rfl : oa = oa2 := Option.some.inj (hOa ▸ hoa2)
  obtain rfl : ob = ob2 := Option.some.inj (hOb ▸ hob2)
  obtain rfl : pa = pa2 := Option.some.inj (hPa ▸ hpa2)
  obtain rfl : pb = pb2 := Option.some.inj (hPb ▸ hpb2)
  rw [init_ok_iff] at hinit
  obtain ⟨-, -, rfl⟩ := hinit
  have hsz : ((A.sizes : Int) + (B.sizes : Int)).toNat = A.sizes + B.sizes := by omega
  have hOlen : oa.length = A.sizes := hAo oa hOa
  have hPlen : pa.length = A.sizes := hAp pa hPa
  refine ⟨_, hq, hsz, rfl, rfl, rfl, ?_, ?_, ?_, ?_, ?_, ?_⟩
  · intro hEn
    simp [hEn]
  · intro ca cb hca hcb hne
    rcases addChecks_ok_inv hnc with ⟨hEn, -⟩ | ⟨-, -, -, -, ca2, cb2, hca2, hcb2, rfl⟩
    · exact absurd hEn hne
    · obtain rfl : ca = ca2 := Option.some.inj (hca ▸ hca2)
      obtain rfl : cb = cb2 := Option.some.inj (hcb ▸ hcb2)
      cases hEe : A.Encoding with
      | none => exact absurd hEe hne
      | some e => simp [hEe]
  · intro hcv
    rcases cvVstackStep_ok_iff.mp hncv with ⟨-, rfl⟩ | ⟨x, y, hx, -, -⟩
    · rfl
    · rw [hcv] at hx; cases hx
  · intro va vb hva hvb
    rcases cvVstackStep_ok_iff.mp hncv with ⟨hn, -⟩ | ⟨x, y, hx, hy, rfl⟩
    · rw [hva] at hn; cases hn
    · obtain rfl : va = x := Option.some.inj (hva ▸ hx)
      obtain rfl : vb = y := Option.some.inj (hvb ▸ hy)
      rfl
  · intro i hi
    rw [hPa, hOa]
    simp only [rowOpt]
    exact ⟨List.getElem?_append_left (hPlen ▸ hi),
      List.getElem?_append_left (hOlen ▸ hi),
      List.getElem?_append_left (hAf ▸ hi)⟩
  · intro j hj
    rw [hPb, hOb]
    simp only [rowOpt]
    refine ⟨?_, ?_, ?_⟩
    · rw [List.getElem?_append_right (by omega : pa.length ≤ A.sizes + j)]
      congr 1
      omega
    · rw [List.getElem?_append_right (by omega : oa.length ≤ A.sizes + j)]
      congr 1
      omega
    · rw [List.getElem?_append_right (by omega : A.FitnV.length ≤ A.sizes + j)]
      congr 1
      omega

/-- Witness for C3: merging the size-2 and size-3 `'RI'` populations gives
size 5, and row `2 + 0` of the merged phenotype is B's phenotype row 0. -/
theorem add_merge_concat_witness :
    (⟨5, some "RI", some [[0, 0]], some [[1, 2], [3, 4], [1, 2], [3, 4], [5, 6]], 2,
        some [[0], [0], [1], [1], [1]], [[1], [1], [1], [1], [1]], none,
        some [[1, 2], [3, 4], [1, 2], [3, 4], [5, 6]]⟩ : Population).sizes =
      exSelfRI.sizes + exPopRI3.sizes ∧
    rowOpt (⟨5, some "RI", some [[0, 0]], some [[1, 2], [3, 4], [1, 2], [3, 4], [5, 6]], 2,
        some [[0], [0], [1], [1], [1]], [[1], [1], [1], [1], [1]], none,
        some [[1, 2], [3, 4], [1, 2], [3, 4], [5, 6]]⟩ : Population).Phen
      (exSelfRI.sizes + 0) = rowOpt exPopRI3.Phen 0 := by
  obtain ⟨q, hq, hsz, -, -, -, -, -, -, -, -, hb⟩ := add_merge_concat exSelfRI exPopRI3
    rfl (by decide) (by decide) (by decide) (by decide) rfl
    [[0], [0]] [[1], [1], [1]] [[1, 2], [3, 4]] [[1, 2], [3, 4], [5, 6]]
    rfl rfl rfl rfl (by decide) (by decide)
  have hlit : Population.add exSelfRI exPopRI3 =
      Except.ok ⟨5, some "RI", some [[0, 0]],
        some [[1, 2], [3, 4], [1, 2], [3, 4], [5, 6]], 2,
        some [[0], [0], [1], [1], [1]], [[1], [1], [1], [1], [1]], none,
        some [[1, 2], [3, 4], [1, 2], [3, 4], [5, 6]]⟩ := by rfl
  rw [hq] at hlit
  obtain rfl := Except.ok.inj hlit
  exact ⟨hsz, (hb 0 (by decide)).1⟩

/-- C6 counterexample: the claim allows every presence pattern the data
model allows, including an undecoded population with absent phenotype; but
`shuffle` subscripts `self.Phen` unguarded, so instead of permuting in place
with absent attributes staying absent, it raises. -/
theorem shuffle_absent_phen_cex :
    Population.shuffle exRIneedsDecode [0] = Except.error PopErr.typeError := by
  rfl

/-- C6 (amended): for a Population whose phenotype is present, applying one
common permutation of `sizes` elements succeeds, keeps `sizes`, permutes the
rows of every present attribute by that same permutation (so the multiset of
rows of every attribute is unchanged and cross-attribute row alignment is
preserved: new row `k` of every attribute is old row `shuff[k]`), and keeps
absent attributes absent.  (The permutation is drawn by `np.argsort` of
uniform randoms in the source and passed explicitly here; in-place mutation
is modelled by returning the updated record.) -/
theorem shuffle_common_permutation (p : Population) (shuff : List Nat)
    (hperm : shuff.Perm (List.range p.sizes)) (hAl : alignedB p = true)
    (hPhen : p.Phen.isSome)
    (hChrom : p.Encoding ≠ none → p.Chrom.isSome) :
    ∃ q, Population.shuffle p shuff = Except.ok q ∧ q.sizes = p.sizes ∧
      q.FitnV.Perm p.FitnV ∧
      (∀ m, p.Phen = some m → ∃ g, q.Phen = some g ∧ g.Perm m) ∧
      (∀ m, p.ObjV = some m → ∃ g, q.ObjV = some g ∧ g.Perm m) ∧
      (∀ m, p.CV = some m → ∃ g, q.CV = some g ∧ g.Perm m) ∧
      (∀ m, p.Chrom = some m → p.Encoding ≠ none →
        ∃ g, q.Chrom = some g ∧ g.Perm m) ∧
      (p.ObjV = none → q.ObjV = none) ∧ (p.CV = none → q.CV = none) ∧
      (p.Encoding = none → q.Chrom = none) ∧
      (∀ k j : Nat, shuff[k]? = some j →
        (p.Encoding ≠ none → rowOpt q.Chrom k = rowOpt p.Chrom j) ∧
        rowOpt q.ObjV k = rowOpt p.ObjV j ∧
        q.FitnV[k]? = p.FitnV[j]? ∧
        rowOpt q.CV k = rowOpt p.CV j ∧
        rowOpt q.Phen k = rowOpt p.Phen j) := by
  have hIdx : ∀ i ∈ shuff, i < p.sizes := fun i hi =>
    List.mem_range.mp (hperm.mem_iff.mp hi)
  obtain ⟨q, hq⟩ := shuffle_isOk hIdx hAl hPhen hChrom
  obtain ⟨hsz, hEnc, hFl2, hLi2, ⟨fg, hfg, hqf⟩, hnoneC, hsomeC, hOn, hOs, hCn, hCs,
    ⟨ph, pg, hph, hgph, hqp⟩⟩ := shuffle_ok_inv hq
  obtain ⟨hAc, hAo, hAf, hAcv, hAp⟩ := alignedB_iff.mp hAl
  refine ⟨q, hq, hsz, ?_, ?_, ?_, ?_, ?_, hOn, hCn, hnoneC, ?_⟩
  · rw [hqf]
    exact gather_perm (by rw [hAf]; exact hperm) hfg
  · intro m hm
    obtain rfl : ph = m := Option.some.inj (hph.symm.trans hm)
    exact ⟨pg, hqp, gather_perm (by rw [hAp ph hph]; exact hperm) hgph⟩
  · intro m hm
    obtain ⟨g, hg, hqo⟩ := hOs m hm
    exact ⟨g, hqo, gather_perm (by rw [hAo m hm]; exact hperm) hg⟩
  · intro m hm
    obtain ⟨g, hg, hqo⟩ := hCs m hm
    exact ⟨g, hqo, gather_perm (by rw [hAcv m hm]; exact hperm) hg⟩
  · intro m hm hne
    obtain ⟨c, cg, hc, hcg, hqc⟩ := hsomeC hne
    obtain rfl : c = m := Option.some.inj (hc.symm.trans hm)
    exact ⟨cg, hqc, gather_perm (by rw [hAc c hc]; exact hperm) hcg⟩
  · intro k j hkj
    refine ⟨?_, ?_, ?_, ?_, ?_⟩
    · intro hne
      obtain ⟨c, cg, hc, hcg, hqc⟩ := hsomeC hne
      rw [hqc, hc]
      simp only [rowOpt]
      rw [gather_getElem? hcg k, hkj]
      rfl
    · cases hO : p.ObjV with
      | none => rw [hOn hO]; rfl
      | some m =>
        obtain ⟨g, hg, hqo⟩ := hOs m hO
        rw [hqo]
        simp only [rowOpt]
        rw [gather_getElem? hg k, hkj]
        rfl
    · rw [hqf, gather_getElem? hfg k, hkj]
      rfl
    · cases hC : p.CV with
      | none => rw [hCn hC]; rfl
      | some m =>
        obtain ⟨g, hg, hqo⟩ := hCs m hC
        rw [hqo]
        simp only [rowOpt]
        rw [gather_getElem? hg k, hkj]
        rfl
    · rw [hqp, hph]
      simp only [rowOpt]
      rw [gather_getElem? hgph k, hkj]
      rfl

/-- Witness for the amended C6: shuffling the size-2 `'RI'` population by
the permutation `[1, 0]` keeps the fitness multiset and moves old phenotype
row 1 to new row 0. -/
theorem shuffle_common_permutation_witness :
    (⟨2, some "RI", some [[0, 0]], some [[3, 4], [1, 2]], 2, some [[0], [0]],
        [[1], [1]], none, some [[3, 4], [1, 2]]⟩ : Population).FitnV.Perm
      exSelfRI.FitnV ∧
    rowOpt (⟨2, some "RI", some [[0, 0]], some [[3, 4], [1, 2]], 2, some [[0], [0]],
        [[1], [1]], none, some [[3, 4], [1, 2]]⟩ : Population).Phen 0 =
      rowOpt exSelfRI.Phen 1 := by
  obtain ⟨q, hq, -, hpf, -, -, -, -, -, -, -, hrows⟩ :=
    shuffle_common_permutation exSelfRI [1, 0] (by decide) (by decide) (by decide)
      (by decide)
  have hlit : Population.shuffle exSelfRI [1, 0] =
      Except.ok ⟨2, some "RI", some [[0, 0]], some [[3, 4], [1, 2]], 2,
        some [[0], [0]], [[1], [1]], none, some [[3, 4], [1, 2]]⟩ := by rfl
  rw [hq] at hlit
  obtain rfl := Except.ok.inj hlit
  exact ⟨hpf, (hrows 0 1 rfl).2.2.2.2⟩

theorem rowsOk_spec {o : Option Mat} {n : Nat} (h : rowsOk o n = true) :
    ∀ m, o = some m → m.length = n := by
  intro m hm
  rw [hm] at h
  simpa [rowsOk] using h

theorem decoding_ok_inv {bs2ri : Option Mat → Option Mat → Mat} {p : Population}
    {ph : Mat} (h : Population.decoding bs2ri p = Except.ok ph) :
    (p.Encoding = some "BG" ∧ ph = bs2ri p.Chrom p.Field) ∨
    ((p.Encoding = some "RI" ∨ p.Encoding = some "P") ∧ p.Chrom = some ph) := by
  unfold Population.decoding at h
  split at h
  next hBG => exact Or.inl ⟨hBG, (Except.ok.inj h).symm⟩
  next hBG =>
    split at h
    next hRI =>
      cases hc : p.Chrom with
      | none => simp only [hc] at h; cases h
      | some c =>
        simp only [hc] at h
        exact Or.inr ⟨hRI, by rw [Except.ok.inj h]⟩
    next => cases h

/-- C1 counterexample: construction performs no row-count validation.
Supplying a 2-row fitness matrix with target size 3 completes successfully
and yields a Population whose `FitnV` has 2 rows while `sizes` is 3 — the
row-alignment invariant is violated right after a public operation. -/
theorem init_row_alignment_cex :
    Population.init (some "RI") (some [[0, 0]]) 3 none none (some [[1], [1]])
        none none =
      Except.ok ⟨3, some "RI", some [[0, 0]], none, 0, none, [[1], [1]], none, none⟩ ∧
    alignedB ⟨3, some "RI", some [[0, 0]], none, 0, none, [[1], [1]], none, none⟩ =
      false :=
  ⟨rfl, rfl⟩

theorem initChrom_ok_inv {crtpc : Option String → Nat → Option Mat → Mat}
    {bs2ri : Option Mat → Option Mat → Mat} {p : Population} {n : Option Nat}
    {q : Population} (h : Population.initChrom crtpc bs2ri p n = Except.ok q) :
    ∃ ph,
      Population.decoding bs2ri { p with
        sizes := n.getD p.sizes
        Chrom := some (crtpc p.Encoding (n.getD p.sizes) p.Field)
        Lind := shape1 (crtpc p.Encoding (n.getD p.sizes) p.Field)
        ObjV := none
        FitnV := List.replicate (n.getD p.sizes) [1]
        CV := none } = Except.ok ph ∧
      q = { p with
        sizes := n.getD p.sizes
        Chrom := some (crtpc p.Encoding (n.getD p.sizes) p.Field)
        Lind := shape1 (crtpc p.Encoding (n.getD p.sizes) p.Field)
        ObjV := none
        FitnV := List.replicate (n.getD p.sizes) [1]
        CV := none
        Phen := some ph } := by
  simp only [Population.initChrom] at h
  rw [except_bind_ok_iff] at h
  obtain ⟨ph, hph, h⟩ := h
  exact ⟨ph, hph, (Except.ok.inj h).symm⟩

/-- C1 (amended): the constructor performs no row-count validation (see the
counterexample), so the row-alignment invariant is only conditional:
construction whose present matrix arguments all have exactly `sizes` rows is
aligned; every successful indexed view is aligned; merging aligned
populations with present objective/phenotype matrices and matching CV
presence gives an aligned result; shuffling an aligned population by a
`sizes`-length index vector preserves alignment; every successful indexed
assignment on an aligned population preserves alignment; and chromosome
initialization is aligned whenever the generator and codec collaborators
respect their N-row output contracts. -/
theorem row_alignment_conditional :
    (∀ (Enc : Option String) (Fld : Option Mat) (NIND : Int)
        (Chrom ObjV FitnV CV Phen : Option Mat) (p : Population),
      Population.init Enc Fld NIND Chrom ObjV FitnV CV Phen = Except.ok p →
      rowsOk Chrom p.sizes = true → rowsOk ObjV p.sizes = true →
      rowsOk FitnV p.sizes = true → rowsOk CV p.sizes = true →
      rowsOk Phen p.sizes = true → alignedB p = true) ∧
    (∀ (p : Population) (idx : List Nat) (q : Population),
      Population.getitem p idx = Except.ok q → alignedB q = true) ∧
    (∀ A B q, alignedB A = true → alignedB B = true →
      A.ObjV.isSome → B.ObjV.isSome → A.Phen.isSome → B.Phen.isSome →
      A.CV.isNone = B.CV.isNone →
      Population.add A B = Except.ok q → alignedB q = true) ∧
    (∀ (p : Population) (s : List Nat) (q : Population), alignedB p = true →
      s.length = p.sizes → Population.shuffle p s = Except.ok q →
      alignedB q = true) ∧
    (∀ (p pop : Population) (idx : List Nat) (q : Population), alignedB p = true →
      Population.setitem p idx pop = Except.ok q → alignedB q = true) ∧
    (∀ (crtpc : Option String → Nat → Option Mat → Mat)
        (bs2ri : Option Mat → Option Mat → Mat) (p : Population) (n : Option Nat)
        (q : Population),
      (∀ e k f, (crtpc e k f).length = k) →
      (∀ (m : Mat) f, (bs2ri (some m) f).length = m.length) →
      Population.initChrom crtpc bs2ri p n = Except.ok q → alignedB q = true) := by
  refine ⟨?_, ?_, ?_, ?_, ?_, ?_⟩
  · intro Enc Fld NIND Chrom ObjV FitnV CV Phen p h hC hO hF hCV hP
    rw [init_ok_iff] at h
    obtain ⟨-, -, rfl⟩ := h
    refine alignedB_iff.mpr ⟨?_, rowsOk_spec hO, ?_, rowsOk_spec hCV, rowsOk_spec hP⟩
    · intro m hm
      cases Enc with
      | none => cases hm
      | some e => exact rowsOk_spec hC m hm
    · cases hFv : FitnV with
      | none => simp [hFv]
      | some f => exact rowsOk_spec hF f hFv
  · intro p idx q h
    obtain ⟨hsz, -, ⟨fg, hfg, hqf⟩, hnone, hsome, hOn, hOs, hCn, hCs,
      ⟨ph, pg, hph, hgph, hqp⟩⟩ := getitem_ok_inv h
    refine alignedB_iff.mpr ⟨?_, ?_, ?_, ?_, ?_⟩
    · intro m hm
      cases hE : p.Encoding with
      | none => rw [(hnone hE).1] at hm; cases hm
      | some e =>
        obtain ⟨c, cg, f, -, hcg, hqc, -, -⟩ := hsome (by simp [hE])
        rw [hqc] at hm
        obtain rfl : cg = m := Option.some.inj hm
        rw [gather_length hcg, hsz]
    · intro m hm
      cases hOv : p.ObjV with
      | none => rw [hOn hOv] at hm; cases hm
      | some mo =>
        obtain ⟨g, hg, hqo⟩ := hOs mo hOv
        rw [hqo] at hm
        obtain rfl : g = m := Option.some.inj hm
        rw [gather_length hg, hsz]
    · rw [hqf, gather_length hfg, hsz]
    · intro m hm
      cases hCc : p.CV with
      | none => rw [hCn hCc] at hm; cases hm
      | some mc =>
        obtain ⟨g, hg, hqo⟩ := hCs mc hCc
        rw [hqo] at hm
        obtain rfl : g = m := Option.some.inj hm
        rw [gather_length hg, hsz]
    · intro m hm
      rw [hqp] at hm
      obtain rfl : pg = m := Option.some.inj hm
      rw [gather_length hgph, hsz]
  · intro A B q hAlA hAlB hOav hObv hPav hPbv hCVeq h
    obtain ⟨hAc, hAo, hAf, hAcv, hAp⟩ := alignedB_iff.mp hAlA
    obtain ⟨hBc, hBo, hBf, hBcv, hBp⟩ := alignedB_iff.mp hAlB
    obtain ⟨oa, ob, pa, pb, nc, ncv, hnc, hoa, hob, hncv, hpa, hpb, hinit⟩ :=
      add_ok_inv h
    rw [init_ok_iff] at hinit
    obtain ⟨-, -, rfl⟩ := hinit
    have hsz : ((A.sizes : Int) + (B.sizes : Int)).toNat = A.sizes + B.sizes := by
      omega
    refine alignedB_iff.mpr ⟨?_, ?_, ?_, ?_, ?_⟩
    · intro m hm
      cases hE : A.Encoding with
      | none => simp only [hE] at hm; cases hm
      | some e =>
        simp only [hE] at hm
        rcases addChecks_ok_inv hnc with ⟨hEn, -⟩ | ⟨-, -, -, -, ca, cb, hca, hcb, rfl⟩
        · rw [hE] at hEn; cases hEn
        · obtain rfl : ca ++ cb = m := Option.some.inj hm
          simp only [hsz, List.length_append, hAc ca hca, hBc cb hcb]
    · intro m hm
      obtain rfl : oa ++ ob = m := Option.some.inj hm
      simp only [hsz, List.length_append, hAo oa hoa, hBo ob hob]
    · simp only [hsz, List.length_append, hAf, hBf]
    · intro m hm
      rcases cvVstackStep_ok_iff.mp hncv with ⟨-, rfl⟩ | ⟨x, y, hx, hy, rfl⟩
      · cases hm
      · obtain rfl : x ++ y = m := Option.some.inj hm
        simp only [hsz, List.length_append, hAcv x hx, hBcv y hy]
    · intro m hm
      obtain rfl : pa ++ pb = m := Option.some.inj hm
      simp only [hsz, List.length_append, hAp pa hpa, hBp pb hpb]
  · intro p s q hAl hslen h
    obtain ⟨hsz, -, -, -, ⟨fg, hfg, hqf⟩, hnoneC, hsomeC, hOn, hOs, hCn, hCs,
      ⟨ph, pg, hph, hgph, hqp⟩⟩ := shuffle_ok_inv h
    refine alignedB_iff.mpr ⟨?_, ?_, ?_, ?_, ?_⟩
    · intro m hm
      cases hE : p.Encoding with
      | none => rw [hnoneC hE] at hm; cases hm
      | some e =>
        obtain ⟨c, cg, -, hcg, hqc⟩ := hsomeC (by simp [hE])
        rw [hqc] at hm
        obtain rfl : cg = m := Option.some.inj hm
        rw [gather_length hcg, hslen, hsz]
    · intro m hm
      cases hOv : p.ObjV with
      | none => rw [hOn hOv] at hm; cases hm
      | some mo =>
        obtain ⟨g, hg, hqo⟩ := hOs mo hOv
        rw [hqo] at hm
        obtain rfl : g = m := Option.some.inj hm
        rw [gather_length hg, hslen, hsz]
    · rw [hqf, gather_length hfg, hslen, hsz]
    · intro m hm
      cases hCc : p.CV with
      | none => rw [hCn hCc] at hm; cases hm
      | some mc =>
        obtain ⟨g, hg, hqo⟩ := hCs mc hCc
        rw [hqo] at hm
        obtain rfl : g = m := Option.some.inj hm
        rw [gather_length hg, hslen, hsz]
    · intro m hm
      rw [hqp] at hm
      obtain rfl : pg = m := Option.some.inj hm
      rw [gather_length hgph, hslen, hsz]
  · intro p pop idx q hAl h
    obtain ⟨hAc, hAo, hAf, hAcv, hAp⟩ := alignedB_iff.mp hAl
    obtain ⟨nc, hnc, hw⟩ := setitem_ok_inv h
    obtain ⟨om, ov, pm, pv, hom, hov, hlo, hbo, hpm, hpv, hlp, hbp, hlf, hbf,
      hqc, hqo, hqf, hqp, hqs, -, -, -, hcv⟩ := setitemWrites_ok_inv hw
    have hsz : q.sizes = p.sizes := by
      rw [hqs, setRows_length, hAp pm hpm]
    refine alignedB_iff.mpr ⟨?_, ?_, ?_, ?_, ?_⟩
    · intro m hm
      rw [hqc] at hm
      rcases setitemChecks_ok_inv hnc with ⟨-, rfl⟩ |
        ⟨-, -, -, -, -, c, pc, hc, -, -, -, rfl⟩
      · rw [hsz]
        exact hAc m hm
      · obtain rfl : setRows c idx pc = m := Option.some.inj hm
        rw [setRows_length, hAc c hc, hsz]
    · intro m hm
      rw [hqo] at hm
      obtain rfl : setRows om idx ov = m := Option.some.inj hm
      rw [setRows_length, hAo om hom, hsz]
    · rw [hqf, setRows_length, hAf, hsz]
    · intro m hm
      rcases hcv with ⟨-, hqcv⟩ | ⟨cv, pcv, hcva, -, -, -, hqcv⟩
      · rw [hqcv] at hm; cases hm
      · rw [hqcv] at hm
        obtain rfl : setRows cv idx pcv = m := Option.some.inj hm
        rw [setRows_length, hAcv cv hcva, hsz]
    · intro m hm
      rw [hqp] at hm
      obtain rfl : setRows pm idx pv = m := Option.some.inj hm
      rw [setRows_length, hAp pm hpm, hsz]
  · intro crtpc bs2ri p n q hc hb h
    obtain ⟨ph, hph, rfl⟩ := initChrom_ok_inv h
    have hphlen : ph.length = n.getD p.sizes := by
      rcases decoding_ok_inv hph with ⟨-, rfl⟩ | ⟨-, hchrom⟩
      · show (bs2ri (some (crtpc p.Encoding (n.getD p.sizes) p.Field))
            p.Field).length = n.getD p.sizes
        rw [hb, hc]
      · have h2 : some (crtpc p.Encoding (n.getD p.sizes) p.Field) = some ph :=
          hchrom
        rw [← Option.some.inj h2, hc]
    refine alignedB_iff.mpr ⟨?_, ?_, ?_, ?_, ?_⟩
    · intro m hm
      obtain rfl : crtpc p.Encoding (n.getD p.sizes) p.Field = m :=
        Option.some.inj hm
      exact hc _ _ _
    · intro m hm
      cases hm
    · simp
    · intro m hm
      cases hm
    · intro m hm
      obtain rfl : ph = m := Option.some.inj hm
      exact hphlen

/-- Witness for the amended C1: constructing with matrices of exactly 2 rows
and target size 2 yields a row-aligned Population. -/
theorem row_alignment_conditional_witness :
    alignedB ⟨2, some "RI", some [[0, 0]], some [[1, 2], [3, 4]], 2, none,
      [[1], [1]], none, some [[1, 2], [3, 4]]⟩ = true :=
  row_alignment_conditional.1 (some "RI") (some [[0, 0]]) 2 (some [[1, 2], [3, 4]])
    none none none (some [[1, 2], [3, 4]])
    ⟨2, some "RI", some [[0, 0]], some [[1, 2], [3, 4]], 2, none,
      [[1], [1]], none, some [[1, 2], [3, 4]]⟩
    (by rfl) (by decide) (by decide) (by decide) (by decide) (by decide)
